import Mathlib

/-!
Verification development for the incy-bot incident-response assistant.

The definitions below are a shallow embedding, translated from the Python
sources of the repository:
  * `app/kb.py`        — knowledge-base index (FTS5 seed/query layer)
  * `app/main.py`      — HTTP KB search endpoint with severity rewrite
  * `app/incident_logic.py` — severity classification and default assignees
  * `app/agent_tools.py`    — tool implementations and the dispatcher
  * `app/agent.py`     — the conversation orchestrator loop

Python dynamic values are modelled by the JSON-like type `JVal`; Python
runtime exceptions (KeyError, AttributeError, TypeError, pydantic
ValidationError, sqlite3.OperationalError) are modelled by `Except PyErr`.
The sqlite FTS5 MATCH engine is modelled by a query lexer/parser and a
boolean match semantics over the five chunk columns; the bm25 relevance
score is abstracted as an external scoring function (the spec treats the
ranking engine as an external collaborator).
-/

namespace IncyBot

/-- JSON-like values, modelling both Python `json` values and the dynamic
`Dict[str, Any]` payloads passed between the orchestrator and tools. -/
inductive JVal where
  | null : JVal
  | bool : Bool → JVal
  | num : Int → JVal
  | str : String → JVal
  | arr : List JVal → JVal
  | obj : List (String × JVal) → JVal
deriving Repr

/-- Python runtime exceptions that the embedded code can raise. -/
inductive PyErr where
  | keyError (key : String)
  | attributeError
  | typeError
  | valueError
  | validationError
  | operationalError
deriving Repr, DecidableEq

mutual

/-- Structural boolean equality on `JVal`. -/
def jbeq : JVal → JVal → Bool
  | .null, .null => true
  | .bool a, .bool b => a == b
  | .num a, .num b => a == b
  | .str a, .str b => a == b
  | .arr a, .arr b => jbeqList a b
  | .obj a, .obj b => jbeqObj a b
  | _, _ => false

def jbeqList : List JVal → List JVal → Bool
  | [], [] => true
  | a :: as', b :: bs => jbeq a b && jbeqList as' bs
  | _, _ => false

def jbeqObj : List (String × JVal) → List (String × JVal) → Bool
  | [], [] => true
  | (k, a) :: as', (l, b) :: bs => k == l && jbeq a b && jbeqObj as' bs
  | _, _ => false

end

/-- Python truthiness of a JSON-like value (`bool(x)`). -/
def jTruthy : JVal → Bool
  | .null => false
  | .bool b => b
  | .num n => n != 0
  | .str s => s != ""
  | .arr xs => !xs.isEmpty
  | .obj fs => !fs.isEmpty

/-- Pure dictionary lookup (`d[k]` when `d` is known to be a dict),
returning `none` for a missing key or a non-dict value. -/
def jLookup (v : JVal) (k : String) : Option JVal :=
  match v with
  | .obj fs => fs.lookup k
  | _ => none

/-- Python `d.get(k, dflt)`: `AttributeError` when `d` is not a dict. -/
def jGetE (v : JVal) (k : String) (dflt : JVal) : Except PyErr JVal :=
  match v with
  | .obj fs => .ok ((fs.lookup k).getD dflt)
  | _ => .error .attributeError

/-- Python subscript `d[k]` with a string key: `KeyError` when the key is
missing, `TypeError` when the value is not a dict. -/
def pySub (v : JVal) (k : String) : Except PyErr JVal :=
  match v with
  | .obj fs =>
    match fs.lookup k with
    | some x => .ok x
    | none => .error (.keyError k)
  | _ => .error .typeError

/-- Python `a or b` on an optional string-valued field: falsy values
(`None`, `""`, `0`, `False`, `[]`, `\x7b\x7d`) select the fallback. -/
def pyOrJ (a : JVal) (b : JVal) : JVal :=
  if jTruthy a then a else b

/-- Python `str.strip()` (whitespace at both ends). -/
def pyStrip (s : String) : String :=
  String.mk (((s.toList.dropWhile Char.isWhitespace).reverse.dropWhile
    Char.isWhitespace).reverse)

/-- Python `str.lower()` (char-wise; our strings are ASCII). -/
def pyLower (s : String) : String := String.mk (s.toList.map Char.toLower)

/-- Helper for `pySplitWs`: split on whitespace runs (pending reversed). -/
def splitWsAux : List Char → List Char → List String
  | [], [] => []
  | [], acc => [String.mk acc.reverse]
  | c :: cs, acc =>
    if c.isWhitespace then
      (if acc.isEmpty then splitWsAux cs []
       else String.mk acc.reverse :: splitWsAux cs [])
    else splitWsAux cs (c :: acc)

/-- Python `str.split()` with no argument: split on whitespace runs,
dropping empty pieces. -/
def pySplitWs (s : String) : List String := splitWsAux s.toList []

/-- `List.isPrefixOf` specialised helper: does `pat` occur as a contiguous
run inside `l`? (Python `pat in s` substring test, on token lists.) -/
def containsRun [BEq α] (pat : List α) : List α → Bool
  | [] => pat.isEmpty
  | x :: xs => pat.isPrefixOf (x :: xs) || containsRun pat xs

/-- Python substring test `needle in hay`. -/
def substrB (needle hay : String) : Bool :=
  containsRun needle.toList hay.toList

/-- Python `"sep".join(pieces)` over dynamic values: `TypeError` unless
every piece is a string. -/
def joinStrsE (sep : String) (pieces : List JVal) : Except PyErr String := do
  let strs ← pieces.mapM (fun p =>
    match p with
    | JVal.str s => Except.ok s
    | _ => Except.error PyErr.typeError)
  return String.intercalate sep strs

/-- Escape a string for JSON output (backslash and double quote only; the
strings produced by the embedded code never need other escapes). -/
def jstrEscape (s : String) : String :=
  String.mk (s.toList.foldr
    (fun c acc =>
      if c = '"' then '\\' :: '"' :: acc
      else if c = '\\' then '\\' :: '\\' :: acc
      else c :: acc) [])

mutual

/-- `json.dumps` with the default separators. -/
def jdump : JVal → String
  | .null => "null"
  | .bool true => "true"
  | .bool false => "false"
  | .num n => toString n
  | .str s => "\"" ++ jstrEscape s ++ "\""
  | .arr xs => "[" ++ jdumpList xs ++ "]"
  | .obj fs => "\x7b" ++ jdumpObj fs ++ "\x7d"

def jdumpList : List JVal → String
  | [] => ""
  | [x] => jdump x
  | x :: xs => jdump x ++ ", " ++ jdumpList xs

def jdumpObj : List (String × JVal) → String
  | [] => ""
  | [(k, v)] => "\"" ++ jstrEscape k ++ "\": " ++ jdump v
  | (k, v) :: fs => "\"" ++ jstrEscape k ++ "\": " ++ jdump v ++ ", " ++ jdumpObj fs

end

/-- Skip JSON whitespace. -/
def skipWs : List Char → List Char
  | c :: cs => if c = ' ' ∨ c = '\n' ∨ c = '\t' ∨ c = '\r' then skipWs cs else c :: cs
  | [] => []

/-- Scan a JSON string body after the opening quote. -/
def jparseStrBody : List Char → Option (List Char × List Char)
  | [] => none
  | '\\' :: e :: r =>
    let esc : Option Char :=
      if e = '"' then some '"'
      else if e = '\\' then some '\\'
      else if e = '/' then some '/'
      else if e = 'n' then some '\n'
      else if e = 't' then some '\t'
      else if e = 'r' then some '\r'
      else none
    match esc with
    | none => none
    | some c => (fun p => (c :: p.1, p.2)) <$> jparseStrBody r
  | '"' :: r => some ([], r)
  | c :: r => (fun p => (c :: p.1, p.2)) <$> jparseStrBody r

/-- Scan an integer literal (optional minus, one or more digits). -/
def jparseInt : List Char → Option (Int × List Char)
  | cs =>
    let (neg, cs') := match cs with
      | '-' :: r => (true, r)
      | _ => (false, cs)
    let digits := cs'.takeWhile Char.isDigit
    let rest := cs'.dropWhile Char.isDigit
    if digits.isEmpty then none
    else
      let n : Nat := digits.foldl (fun acc c => acc * 10 + (c.toNat - 48)) 0
      some (if neg then -(n : Int) else (n : Int), rest)

mutual

/-- Fuel-bounded JSON value parser (`json.loads` restricted to the
grammar the claims exercise: null/bool/integer/string/array/object;
non-integer numbers are treated as parse failures). -/
def jparseVal : Nat → List Char → Option (JVal × List Char)
  | 0, _ => none
  | fuel + 1, cs =>
    match skipWs cs with
    | 'n' :: 'u' :: 'l' :: 'l' :: r => some (.null, r)
    | 't' :: 'r' :: 'u' :: 'e' :: r => some (.bool true, r)
    | 'f' :: 'a' :: 'l' :: 's' :: 'e' :: r => some (.bool false, r)
    | '"' :: r =>
      match jparseStrBody r with
      | some (body, r') => some (.str (String.mk body), r')
      | none => none
    | '[' :: r =>
      (match skipWs r with
       | ']' :: r' => some (.arr [], r')
       | r' =>
         match jparseArrItems fuel r' with
         | some (xs, r'') => some (.arr xs, r'')
         | none => none)
    | '\x7b' :: r =>
      (match skipWs r with
       | '\x7d' :: r' => some (.obj [], r')
       | r' =>
         match jparseObjItems fuel r' with
         | some (fs, r'') => some (.obj fs, r'')
         | none => none)
    | cs' =>
      match jparseInt cs' with
      | some (n, r) => some (.num n, r)
      | none => none

def jparseArrItems : Nat → List Char → Option (List JVal × List Char)
  | 0, _ => none
  | fuel + 1, cs =>
    match jparseVal fuel cs with
    | none => none
    | some (v, r) =>
      match skipWs r with
      | ',' :: r' =>
        match jparseArrItems fuel r' with
        | some (xs, r'') => some (v :: xs, r'')
        | none => none
      | ']' :: r' => some ([v], r')
      | _ => none

def jparseObjItems : Nat → List Char → Option (List (String × JVal) × List Char)
  | 0, _ => none
  | fuel + 1, cs =>
    match skipWs cs with
    | '"' :: r =>
      (match jparseStrBody r with
       | none => none
       | some (key, r') =>
         match skipWs r' with
         | ':' :: r'' =>
           (match jparseVal fuel r'' with
            | none => none
            | some (v, r3) =>
              match skipWs r3 with
              | ',' :: r4 =>
                (match jparseObjItems fuel r4 with
                 | some (fs, r5) => some ((String.mk key, v) :: fs, r5)
                 | none => none)
              | '\x7d' :: r4 => some ([(String.mk key, v)], r4)
              | _ => none)
         | _ => none)
    | _ => none

end

/-- `json.loads` on a whole string: the value must consume the entire
input up to trailing whitespace. -/
def jloads (s : String) : Option JVal :=
  match jparseVal (s.length + 1) s.toList with
  | some (v, rest) => if (skipWs rest).isEmpty then some v else none
  | none => none

/-! ## Knowledge base (`app/kb.py`) -/

/-- A word character in the sense of `kb.py`'s `_WORD_RE = [A-Za-z0-9_]+`. -/
def wordChar (c : Char) : Bool := c.isAlphanum || c = '_'

/-- Helper for `wordTokens`: accumulate the current run (reversed). -/
def wordTokensAux : List Char → List Char → List String
  | [], [] => []
  | [], pend => [String.mk pend.reverse]
  | c :: cs, pend =>
    if wordChar c then wordTokensAux cs (c :: pend)
    else if pend.isEmpty then wordTokensAux cs []
    else String.mk pend.reverse :: wordTokensAux cs []

/-- `re.findall(r"[A-Za-z0-9_]+", s)`. -/
def wordTokens (s : String) : List String := wordTokensAux s.toList []

/-- Tokens of a text as seen by the (lower-casing) FTS tokenizer. -/
def lcTokens (s : String) : List String := (wordTokens s).map pyLower

/-- `kb.py` `_to_fts_match_query`: extract word tokens and wrap each in
double quotes, joined with spaces (implicit FTS5 AND). -/
def toFtsMatchQuery (text : String) : String :=
  let tokens := wordTokens text
  if tokens.isEmpty then ""
  else String.intercalate " " (tokens.map (fun t => "\"" ++ t ++ "\""))

/-- Tokens of the FTS5 query language (the subset reachable from this
program: barewords, quoted phrases, parentheses, column filters). -/
inductive Tok where
  | lp | rp | colon | minus
  | word (s : String)
  | quoted (s : String)
deriving DecidableEq, Repr

/-- Lexer state: inside a bareword (pending chars, reversed) or inside a
double-quoted phrase. -/
inductive LexSt where
  | norm (pend : List Char)
  | quo (acc : List Char)

/-- Flush a pending bareword in front of the given token list. -/
def flushTok (pend : List Char) (ts : List Tok) : List Tok :=
  if pend.isEmpty then ts else Tok.word (String.mk pend.reverse) :: ts

/-- Single-pass lexer for FTS5 MATCH queries.  Characters that FTS5 does
not accept outside a quoted phrase produce `none` (modelling
`sqlite3.OperationalError`). -/
def lexGo : List Char → LexSt → Option (List Tok)
  | [], .norm pend => some (flushTok pend [])
  | [], .quo _ => none
  | c :: rest, .quo acc =>
    if c = '"' then (fun ts => Tok.quoted (String.mk acc.reverse) :: ts) <$> lexGo rest (.norm [])
    else lexGo rest (.quo (c :: acc))
  | c :: rest, .norm pend =>
    if wordChar c then lexGo rest (.norm (c :: pend))
    else if c.isWhitespace then flushTok pend <$> lexGo rest (.norm [])
    else if c = '(' then (fun ts => flushTok pend (Tok.lp :: ts)) <$> lexGo rest (.norm [])
    else if c = ')' then (fun ts => flushTok pend (Tok.rp :: ts)) <$> lexGo rest (.norm [])
    else if c = ':' then (fun ts => flushTok pend (Tok.colon :: ts)) <$> lexGo rest (.norm [])
    else if c = '-' then (fun ts => flushTok pend (Tok.minus :: ts)) <$> lexGo rest (.norm [])
    else if c = '"' then flushTok pend <$> lexGo rest (.quo [])
    else none

/-- Lex a whole MATCH string. -/
def ftsLex (s : String) : Option (List Tok) := lexGo s.toList (.norm [])

/-- Abstract syntax of FTS5 MATCH queries (NEAR omitted; `butNot` is the
binary `a NOT b`). -/
inductive FtsQuery where
  | phrase (toks : List String)
  | colf (neg : Bool) (col : String) (q : FtsQuery)
  | and (a b : FtsQuery)
  | or (a b : FtsQuery)
  | butNot (a b : FtsQuery)
deriving DecidableEq, Repr

/-- Column names of the `kb_chunks` FTS5 table (`kb.py` `init_kb`). -/
def ftsCols : List String := ["chunk_id", "title", "tags", "content", "source"]

/-- The case-sensitive FTS5 operator keywords. -/
def ftsOpWords : List String := ["OR", "AND", "NOT"]

mutual

/-- Primary: parenthesised query, (negated) column filter, bareword or
quoted phrase.  An unknown column name fails (sqlite reports
`no such column`), and operator keywords cannot stand as terms. -/
def parsePrim : Nat → List Tok → Option (FtsQuery × List Tok)
  | 0, _ => none
  | fuel + 1, Tok.lp :: r =>
    (match parseExpr fuel r with
     | some (q, Tok.rp :: r') => some (q, r')
     | _ => none)
  | fuel + 1, Tok.minus :: r =>
    (match r with
     | Tok.word c :: Tok.colon :: r2 =>
       if c ∈ ftsCols then
         (match parsePrim fuel r2 with
          | some (q, r') => some (.colf true c q, r')
          | none => none)
       else none
     | _ => none)
  | fuel + 1, Tok.word w :: r =>
    (match r with
     | Tok.colon :: r2 =>
       if w ∈ ftsCols then
         (match parsePrim fuel r2 with
          | some (q, r') => some (.colf false w q, r')
          | none => none)
       else none
     | _ =>
       if w ∈ ftsOpWords then none
       else some (.phrase [pyLower w], r))
  | _ + 1, Tok.quoted s :: r =>
    if (lcTokens s).isEmpty then none else some (.phrase (lcTokens s), r)
  | _ + 1, _ => none

/-- AND-level loop: explicit `AND`, binary `NOT`, or juxtaposition
(implicit AND); stops before `OR`, a closing paren or end of input. -/
def parseAndL : Nat → FtsQuery → List Tok → Option (FtsQuery × List Tok)
  | 0, _, _ => none
  | fuel + 1, a, Tok.word w :: r =>
    if w = "OR" then some (a, Tok.word w :: r)
    else if w = "AND" then
      (match parsePrim fuel r with
       | some (b, r') => parseAndL fuel (.and a b) r'
       | none => none)
    else if w = "NOT" then
      (match parsePrim fuel r with
       | some (b, r') => parseAndL fuel (.butNot a b) r'
       | none => none)
    else
      (match parsePrim fuel (Tok.word w :: r) with
       | some (b, r') => parseAndL fuel (.and a b) r'
       | none => none)
  | fuel + 1, a, Tok.quoted s :: r =>
    (match parsePrim fuel (Tok.quoted s :: r) with
     | some (b, r') => parseAndL fuel (.and a b) r'
     | none => none)
  | fuel + 1, a, Tok.lp :: r =>
    (match parsePrim fuel (Tok.lp :: r) with
     | some (b, r') => parseAndL fuel (.and a b) r'
     | none => none)
  | fuel + 1, a, Tok.minus :: r =>
    (match parsePrim fuel (Tok.minus :: r) with
     | some (b, r') => parseAndL fuel (.and a b) r'
     | none => none)
  | _ + 1, a, r => some (a, r)

def parseAnd : Nat → List Tok → Option (FtsQuery × List Tok)
  | 0, _ => none
  | fuel + 1, ts =>
    match parsePrim fuel ts with
    | some (a, r) => parseAndL fuel a r
    | none => none

/-- OR-level loop (lowest precedence). -/
def parseOrL : Nat → FtsQuery → List Tok → Option (FtsQuery × List Tok)
  | 0, _, _ => none
  | fuel + 1, a, Tok.word w :: r =>
    if w = "OR" then
      (match parseAnd fuel r with
       | some (b, r') => parseOrL fuel (.or a b) r'
       | none => none)
    else some (a, Tok.word w :: r)
  | _ + 1, a, r => some (a, r)

def parseExpr : Nat → List Tok → Option (FtsQuery × List Tok)
  | 0, _ => none
  | fuel + 1, ts =>
    match parseAnd fuel ts with
    | some (a, r) => parseOrL fuel a r
    | none => none

end

/-- Parse a MATCH string: lex, parse, and require full consumption.
`none` models `sqlite3.OperationalError` raised by a malformed query. -/
def ftsParse (s : String) : Option FtsQuery :=
  match ftsLex s with
  | none => none
  | some toks =>
    match parseExpr (toks.length * 4 + 8) toks with
    | some (q, []) => some q
    | _ => none

/-- A seeded KB chunk row (`kb.py` `seed_kb_if_empty`). -/
structure Chunk where
  chunk_id : String
  title : String
  tags : String
  content : String
  source : String
deriving DecidableEq, Repr

/-- The five FTS columns of a chunk, in table order. -/
def chunkColTexts (c : Chunk) : List String :=
  [c.chunk_id, c.title, c.tags, c.content, c.source]

/-- Active-column sets for evaluation (indices into `chunkColTexts`). -/
def allColIdx : List Nat := [0, 1, 2, 3, 4]

/-- Index of a column name in the table. -/
def colIdxOf (name : String) : Option Nat :=
  (ftsCols.enum.find? (fun p => p.2 == name)).map (fun p => p.1)

/-- Does a phrase (a non-empty consecutive token sequence) occur in the
token stream of column `i` of chunk `c`? -/
def phraseHitsCol (c : Chunk) (toks : List String) (i : Nat) : Bool :=
  match (chunkColTexts c)[i]? with
  | some text => containsRun toks (lcTokens text)
  | none => false

/-- Boolean match semantics of an FTS5 query against one chunk, relative
to a set of active columns. -/
def ftsEval (c : Chunk) : List Nat → FtsQuery → Bool
  | cols, .phrase toks => cols.any (phraseHitsCol c toks)
  | _, .colf neg col q =>
    let act := match colIdxOf col with
      | some i => if neg then allColIdx.filter (fun j => j ≠ i) else [i]
      | none => []
    ftsEval c act q
  | cols, .and a b => ftsEval c cols a && ftsEval c cols b
  | cols, .or a b => ftsEval c cols a || ftsEval c cols b
  | cols, .butNot a b => ftsEval c cols a && !(ftsEval c cols b)

/-- Parse-then-evaluate one chunk; `none` models a query syntax error. -/
def ftsEvalStr (s : String) (c : Chunk) : Option Bool :=
  (ftsParse s).map (ftsEval c allColIdx)

/-- The MATCH argument actually built by `kb.py` `kb_search` (lines
126-132): the *raw* stripped query, with boost tags OR-ed in.  Note that
`_to_fts_match_query` is NOT applied here. -/
def kbMatchArg (q : String) (tags : Option String) : String :=
  let q2 := pyStrip q
  match tags with
  | none => q2
  | some t =>
    let terms := pySplitWs t
    if terms.isEmpty then q2
    else "(" ++ q2 ++ ") OR (" ++ String.intercalate " OR " terms ++ ")"

/-- The set of chunks satisfying the MATCH clause (`WHERE kb_chunks MATCH ?`),
before ranking and `LIMIT`. -/
def kbMatchSet (db : List Chunk) (mq : String) : Option (List Chunk) :=
  (ftsParse mq).map (fun Q => db.filter (fun c => ftsEval c allColIdx Q))

/-- Insertion sort by ascending score (models `ORDER BY bm25(...)`; the
bm25 value itself is an external-engine input). -/
def sortByScore (score : Chunk → Int) : List Chunk → List Chunk
  | [] => []
  | c :: cs => insertScore score c (sortByScore score cs)
where
  insertScore (score : Chunk → Int) (c : Chunk) : List Chunk → List Chunk
    | [] => [c]
    | d :: ds => if score c ≤ score d then c :: d :: ds else d :: insertScore score c ds

/-- One result row of `kb_search`. -/
def chunkResult (score : Chunk → Int) (c : Chunk) : JVal :=
  .obj [("chunk_id", .str c.chunk_id), ("title", .str c.title),
        ("source", .str c.source), ("score", .num (score c)),
        ("snippet", .str c.content), ("tags", .str c.tags)]

/-- `kb.py` `kb_search`: build the MATCH argument, run the (modelled)
engine, order by score, apply `LIMIT k`.  A malformed MATCH argument
raises (`sqlite3.OperationalError`). -/
def kbSearch (score : Chunk → Int) (db : List Chunk) (q : String) (k : Int)
    (tags : Option String) : Except PyErr (List JVal) :=
  match kbMatchSet db (kbMatchArg q tags) with
  | none => .error .operationalError
  | some hits =>
    let sorted := sortByScore score hits
    let limited := if k < 0 then sorted else sorted.take k.toNat
    .ok (limited.map (chunkResult score))

/-- The three canonical chunks seeded by `seed_kb_if_empty`. -/
def seedChunks : List Chunk :=
  [{ chunk_id := "rb-payments-001",
     title := "Runbook: Payments failing — gateway timeouts",
     tags := "payments_failing checkout_api gateway timeout circuit_breaker",
     content := "Checks: confirm health endpoint unhealthy; look for upstream timeout errors; inspect upstream_timeout_rate and error_rate spikes; review recent deploys, flags, config.\nMitigations: revert gateway timeout to prior value; disable enable_new_gateway flag; rollback recent deploy.\nPost-mitigation: confirm circuit breaker closes and error_rate drops.",
     source := "runbooks/payments_failing.md#gateway-timeouts" },
   { chunk_id := "pol-sev-001",
     title := "Policy: Severity rubric",
     tags := "sev sev1 sev2 sev3 policy",
     content := "SEV1: payments failing or login outage with clear customer impact.\nSEV2: partial degradation (elevated latency or partial failures).\nSEV3: minor issue with limited/no customer impact.",
     source := "policies/severity.md" },
   { chunk_id := "tpl-comms-001",
     title := "Comms: Status update guidance",
     tags := "comms status_update template guidance",
     content := "Initial update should avoid absolute root cause. Use: \x27under investigation\x27, \x27appears related to\x27. Include: what’s happening, customer impact, what we’re doing, next update ETA.\nAfter mitigation: what changed, current status, remaining risk, next steps.",
     source := "templates/comms.md#status-updates" }]

/-! ## Incident logic (`app/incident_logic.py`) and tools (`app/agent_tools.py`) -/

/-- The recognised incident types (`Literal` in `incident_logic.py`,
`allowed_incident_types` in `create_incident_tool`). -/
def allowedIncidentTypes : List String :=
  ["payments_failing", "login_outage", "latency_regression"]

/-- The recognised signal types. -/
def allowedSignals : List String :=
  ["error_rate_spike", "availability_drop", "p95_latency_spike"]

/-- A validated `AlertPayload`. -/
structure AlertRec where
  incident_type : String
  service : String
  signal : String
  start_time : String
  impact : String
  region : Option String
deriving DecidableEq, Repr

/-- `incident_logic.classify_severity`. -/
def classifySeverity (a : AlertRec) : String :=
  if a.incident_type = "payments_failing" ∨ a.incident_type = "login_outage" then "SEV1"
  else if a.incident_type = "latency_regression" then "SEV2"
  else "SEV3"

/-- `incident_logic.default_assignees` as (team, role) pairs. -/
def defaultAssignees (a : AlertRec) : List (String × String) :=
  if a.incident_type = "payments_failing" then
    [("Backend Oncall", "Primary"), ("Payments Team", "Secondary")]
  else if a.incident_type = "login_outage" then
    [("Backend Oncall", "Primary"), ("Identity/Auth Team", "Secondary")]
  else
    [("Backend Oncall", "Primary"), ("Performance/Infra Team", "Secondary")]

/-- Serialise assignees the way `model_dump` + `json.dumps` does. -/
def assigneesJ (l : List (String × String)) : JVal :=
  .arr (l.map (fun p => .obj [("team", .str p.1), ("role", .str p.2)]))

/-- The `normalized` dict built inside `create_incident_tool` (values that
come straight from the alert mapping are still dynamic). -/
structure NormAlert where
  incident_type : String
  service : JVal
  signal : String
  start_time : JVal
  impact : JVal
  region : JVal

/-- Pydantic validation performed by `AlertPayload(**normalized)`:
the enum fields were already normalised to allowed literals; the string
fields must be strings; `region` must be a string or `None`.  Pydantic v2
does not coerce non-string values. -/
def validateAlert (n : NormAlert) : Except PyErr AlertRec := do
  if n.incident_type ∈ allowedIncidentTypes ∧ n.signal ∈ allowedSignals then
    let service ← (match n.service with
      | JVal.str s => Except.ok s
      | _ => Except.error PyErr.validationError)
    let start_time ← (match n.start_time with
      | JVal.str s => Except.ok s
      | _ => Except.error PyErr.validationError)
    let impact ← (match n.impact with
      | JVal.str s => Except.ok s
      | _ => Except.error PyErr.validationError)
    let region ← (match n.region with
      | JVal.str s => Except.ok (some s)
      | JVal.null => Except.ok (none : Option String)
      | _ => Except.error PyErr.validationError)
    Except.ok { incident_type := n.incident_type, service, signal := n.signal,
                start_time, impact, region }
  else Except.error PyErr.validationError

/-- A persisted incident row (`models.Incident`). -/
structure IncidentRow where
  incident_id : String
  incident_type : String
  service : String
  signal : String
  start_time : String
  impact : String
  region : Option String
  severity : String
  created_at : String
  assignees_json : String
deriving DecidableEq, Repr

/-- A persisted note row (`models.IncidentNote`); fields that the tool
layer passes through unvalidated stay dynamic. -/
structure NoteRow where
  note_id : String
  incident_id : JVal
  created_at : String
  type : JVal
  title : JVal
  payload_json : String
  created_by : JVal
deriving Repr

/-- The shared mutable world: incident store, note store, seeded KB, an
id counter (modelling `uuid4` freshness) and the current clock value. -/
structure WState where
  incidents : List IncidentRow
  notes : List NoteRow
  kb : List Chunk
  counter : Nat
  now : String

/-- External collaborators: the reasoning-model transport (a pure
function from the conversation to the decoded response JSON), the fixture
provider, and the bm25 scorer of the ranked-search engine. -/
structure Env where
  transport : List JVal → JVal
  fixtures : String → String → Option JVal
  score : Chunk → Int

/-- Structured `ok: false` tool error. -/
def okFalse (reason : String) : JVal :=
  .obj [("ok", .bool false), ("reason", .str reason)]

/-- The `if value not in allowed: value = fallback` normalisation used
for the two enum fields of `create_incident_tool`.  `allowed` is a Python
`set`, so the membership test hashes the probe first: an unhashable value
— a list or dict, i.e. a JSON array or object — raises `TypeError`; every
other non-member value falls back. -/
def pyEnumFallback (v : JVal) (allowed : List String) (fb : String) :
    Except PyErr String :=
  match v with
  | JVal.str s => .ok (if s ∈ allowed then s else fb)
  | JVal.arr _ => .error .typeError
  | JVal.obj _ => .error .typeError
  | _ => .ok fb

/-- `agent_tools.create_incident_tool`. -/
def createIncidentTool (alert : JVal) (st : WState) : Except PyErr (JVal × WState) := do
  let itRaw ← jGetE alert "incident_type" .null
  let incident_type ← pyEnumFallback itRaw allowedIncidentTypes "payments_failing"
  let sigRaw ← jGetE alert "signal" .null
  let signal ← pyEnumFallback sigRaw allowedSignals "error_rate_spike"
  let serviceRaw ← jGetE alert "service" .null
  let startRaw ← jGetE alert "start_time" .null
  let tsRaw ← jGetE alert "timestamp" .null
  let impactRaw ← jGetE alert "impact" .null
  let ssRaw ← jGetE alert "short_summary" .null
  let regionRaw ← jGetE alert "region" .null
  let norm : NormAlert :=
    { incident_type, signal,
      service := pyOrJ serviceRaw (.str "unknown"),
      start_time := pyOrJ startRaw (pyOrJ tsRaw (.str st.now)),
      impact := pyOrJ impactRaw (pyOrJ ssRaw (.str "unknown impact")),
      region := regionRaw }
  let parsed ← validateAlert norm
  let incident_id := "INC-" ++ toString st.counter
  let severity := classifySeverity parsed
  let created_at := st.now
  let row : IncidentRow :=
    { incident_id, incident_type := parsed.incident_type, service := parsed.service,
      signal := parsed.signal, start_time := parsed.start_time, impact := parsed.impact,
      region := parsed.region, severity, created_at,
      assignees_json := jdump (assigneesJ (defaultAssignees parsed)) }
  let st' := { st with incidents := st.incidents ++ [row], counter := st.counter + 1 }
  Except.ok (.obj [("incident_id", .str incident_id), ("severity", .str severity),
                   ("created_at", .str created_at)], st')

/-- Look up an incident row by a dynamic id value (the SQL equality with
a non-string value matches nothing). -/
def findIncident (st : WState) (incident_id : JVal) : Option IncidentRow :=
  match incident_id with
  | .str s => st.incidents.find? (fun r => r.incident_id == s)
  | _ => none

/-- `agent_tools.assign_owners_tool`. -/
def assignOwnersTool (incident_id : JVal) (st : WState) : Except PyErr (JVal × WState) :=
  match findIncident st incident_id with
  | none => .ok (okFalse "incident not found", st)
  | some inc =>
    .ok (.obj [("incident_id", incident_id),
               ("assignees", (jloads inc.assignees_json).getD .null)], st)

/-- `agent_tools.get_evidence_tool`. -/
def getEvidenceTool (env : Env) (incident_id : JVal) (st : WState) :
    Except PyErr (JVal × WState) :=
  match findIncident st incident_id with
  | none => .ok (okFalse "incident not found", st)
  | some inc =>
    let itype := inc.incident_type
    let load := fun (name : String) => env.fixtures itype name
    match load "logs", load "metrics", load "changes", load "runbook" with
    | some logs, some metrics, some changes, some runbook =>
      .ok (.obj [("incident_id", .str inc.incident_id), ("incident_type", .str itype),
                 ("service", .str inc.service),
                 ("region", match inc.region with | some r => .str r | none => .null),
                 ("evidence_bundle", .obj [("logs", logs), ("metrics", metrics),
                                           ("changes", changes), ("runbook", runbook)])], st)
    | _, _, _, _ => .ok (okFalse ("Missing fixture: " ++ itype), st)

/-- `agent_tools.add_note_tool`. -/
def addNoteTool (incident_id note_type payload title created_by : JVal) (st : WState) :
    Except PyErr (JVal × WState) :=
  match findIncident st incident_id with
  | none => .ok (okFalse "incident not found", st)
  | some _ =>
    let note_id := "NOTE-" ++ toString st.counter
    let created_at := st.now
    let row : NoteRow :=
      { note_id, incident_id, created_at, type := note_type, title,
        payload_json := jdump payload, created_by }
    let st' := { st with notes := st.notes ++ [row], counter := st.counter + 1 }
    let notes_count := (st'.notes.filter (fun n => jbeq n.incident_id incident_id)).length
    .ok (.obj [("ok", .bool true), ("incident_id", incident_id),
               ("note_id", .str note_id), ("created_at", .str created_at),
               ("notes_count", .num notes_count)], st')

/-- Python `int(x)`. -/
def pyInt : JVal → Except PyErr Int
  | .num n => .ok n
  | .bool b => .ok (if b then 1 else 0)
  | .str s =>
    (match jparseInt (pyStrip s).toList with
     | some (n, []) => .ok n
     | _ => .error .valueError)
  | _ => .error .typeError

/-- `agent_tools.search_kb_tool`: joins truthy incident_type/service into
a tag string (no normalisation on this path) and delegates to `kb_search`
with the model-supplied query text unchanged. -/
def searchKbTool (env : Env) (query : JVal) (k : Int) (incident_type service : JVal)
    (st : WState) : Except PyErr (JVal × WState) := do
  let pieces := [incident_type, service].filter jTruthy
  let tagsStr ← joinStrsE " " pieces
  let tags := if tagsStr = "" then none else some tagsStr
  let q ← (match query with
    | JVal.str s => Except.ok s
    | _ => Except.error PyErr.attributeError)
  let results ← kbSearch env.score st.kb q k tags
  Except.ok (.obj [("query", query), ("top_k", .num k), ("results", .arr results)], st)

/-- `agent_tools.dispatch_tool`: route a capability name to its
implementation; required arguments are read with `args[...]`
(raising `KeyError`/`TypeError`), optional ones with `args.get(...)`. -/
def dispatchTool (env : Env) (name : String) (args : JVal) (st : WState) :
    Except PyErr (JVal × WState) :=
  if name = "create_incident" then do
    let alert ← pySub args "alert"
    createIncidentTool alert st
  else if name = "assign_owners" then do
    let i ← pySub args "incident_id"
    assignOwnersTool i st
  else if name = "get_evidence" then do
    let i ← pySub args "incident_id"
    getEvidenceTool env i st
  else if name = "kb_search" then do
    let q ← pySub args "query"
    let kRaw ← jGetE args "k" (.num 3)
    let k ← pyInt kRaw
    let it ← jGetE args "incident_type" .null
    let sv ← jGetE args "service" .null
    searchKbTool env q k it sv st
  else if name = "add_note" then do
    let i ← pySub args "incident_id"
    let nt ← pySub args "note_type"
    let ti ← jGetE args "title" .null
    let pl ← jGetE args "payload" (.obj [])
    let cb ← jGetE args "created_by" .null
    addNoteTool i nt pl ti cb st
  else
    .ok (okFalse ("unknown tool " ++ name), st)

/-! ## HTTP KB endpoint (`app/main.py` `search_kb`) -/

/-- `main.normalize_fts_token`: replace hyphens and lower-case. -/
def normalizeFtsToken (s : String) : String :=
  pyLower (String.mk (s.toList.map (fun c => if c = '-' then '_' else c)))

/-- The severity-rewrite condition of `search_kb` (substring tests on the
lower-cased raw query). -/
def sevRewriteCond (q : String) : Bool :=
  let ql := pyLower (pyStrip q)
  substrB "sev1" ql || substrB "sev2" ql || substrB "sev3" ql ||
    substrB "severity" ql || substrB "rubric" ql

/-- The severity tokens mentioned in the query.  (In the source these are
collected by iterating a Python `set`, whose order is unspecified; the
model fixes the order sev1, sev2, sev3.) -/
def sevMentioned (q : String) : List String :=
  ["sev1", "sev2", "sev3"].filter (fun t => substrB t (pyLower (pyStrip q)))

/-- The query string `search_kb` actually hands to `kb_search`
(`q_norm` after the final `normalize_fts_token`, main.py lines 250-273). -/
def endpointNormQuery (q : String) : String :=
  let q_raw := pyStrip q
  let q_norm :=
    if sevRewriteCond q then
      String.intercalate " OR " (["sev", "severity", "rubric", "policy"] ++ sevMentioned q)
    else q_raw
  normalizeFtsToken q_norm

/-- The boost-tag string built by the endpoint (normalised, then the
whole join stripped). -/
def endpointTags (incident_type service : Option String) : String :=
  pyStrip (String.intercalate " "
    ((([incident_type, service].filterMap id).filter (fun t => t ≠ "")).map normalizeFtsToken))

/-- `main.search_kb`: severity rewrite, hyphen/lower-casing, tag boosts,
then `kb_search`.  Returns (matched_query, results). -/
def searchKbEndpoint (env : Env) (st : WState) (q : String) (k : Int)
    (incident_type service : Option String) : Except PyErr (String × List JVal) := do
  let tags := endpointTags incident_type service
  let qn := endpointNormQuery q
  let results ← kbSearch env.score st.kb qn k (if tags = "" then none else some tags)
  Except.ok (qn, results)

/-! ## Conversation orchestrator (`app/agent.py`) -/

/-- The fixed system instruction seeded into every conversation. -/
def SYSTEM_PROMPT : String :=
  "You are the incident response brain for a demo service. Use tools to create the incident, fetch evidence, and consult the KB. Then return ONLY a JSON object with the exact fields:\n\x7b\n  \"incident_id\": string,\n  \"status\": \"in_progress\" | \"failed\",\n  \"severity\": \"SEV1\" | \"SEV2\" | \"SEV3\",\n  \"service\": string,\n  \"summary\": string,\n  \"evidence\": \x7b\n    \"metrics_window\": string | null,\n    \"error_rate\": number | null,\n    \"p95_latency_ms\": number | null,\n    \"upstream_timeout_rate\": number | null,\n    \"request_rate_rps\": number | null,\n    \"log_window\": string | null,\n    \"log_highlights\": string[],\n    \"recent_changes\": string[],\n    \"runbook_title\": string | null\n  \x7d,\n  \"recommended_actions\": string[],\n  \"suggested_mitigations\": string[],\n  \"next_update_minutes\": number\n\x7d\nDo not include extra keys or text."

/-- `agent._extract_output_text`. -/
def extractOutputText (items : List JVal) : Except PyErr String := do
  let chunks ← items.foldlM (fun (acc : List JVal) item => do
    let ty ← jGetE item "type" .null
    if jbeq ty (.str "message") then
      let content ← jGetE item "content" .null
      match content with
      | JVal.str _ => pure (acc ++ [content])
      | JVal.arr parts =>
        parts.foldlM (fun (acc2 : List JVal) part => do
          let pty ← jGetE part "type" .null
          if jbeq pty (.str "output_text") || jbeq pty (.str "text") then
            let text ← jGetE part "text" .null
            if jTruthy text then pure (acc2 ++ [text]) else pure acc2
          else pure acc2) acc
      | _ => pure acc
    else pure acc) ([] : List JVal)
  let joined ← joinStrsE "\n" chunks
  return pyStrip joined

/-- `agent._parse_tool_args`. -/
def parseToolArgs (v : JVal) : JVal :=
  match v with
  | .obj _ => v
  | .str s =>
    (match jloads s with
     | some j => j
     | none => .obj [])
  | _ => .obj []

/-- The tool-call filter comprehension of `run_incident_agent`
(`item.get("type") == "function_call"`; evaluating `.get` on a non-dict
item raises `AttributeError`). -/
def filterFnCalls (items : List JVal) : Except PyErr (List JVal) :=
  items.foldlM (fun (acc : List JVal) item => do
    let ty ← jGetE item "type" .null
    pure (if jbeq ty (.str "function_call") then acc ++ [item] else acc)) []

/-- The tool-result turn appended for one resolved call. -/
def mkCallOutput (callId : JVal) (result : JVal) : JVal :=
  .obj [("type", .str "function_call_output"), ("call_id", callId),
        ("output", .str (jdump result))]

/-- `result = dispatch_tool(name, args) if name else {...missing_tool_name}`;
a truthy non-string name falls through every dispatcher comparison. -/
def resolveCall (env : Env) (nameV args : JVal) (st : WState) :
    Except PyErr (JVal × WState) :=
  if jTruthy nameV then
    match nameV with
    | JVal.str s => dispatchTool env s args st
    | _ => Except.ok (okFalse ("unknown tool " ++ jdump nameV), st)
  else Except.ok (okFalse "missing_tool_name", st)

/-- Resolve the tool calls of one round in order, appending one
`function_call_output` per call. -/
def processCalls (env : Env) : List JVal → WState → Except PyErr (List JVal × WState)
  | [], st => .ok ([], st)
  | call :: rest, st => do
    let nameV ← jGetE call "name" .null
    let callId ← jGetE call "call_id" .null
    let rawArgs ← jGetE call "arguments" .null
    let (result, st2) ← resolveCall env nameV (parseToolArgs rawArgs) st
    let (outs, st3) ← processCalls env rest st2
    Except.ok (mkCallOutput callId result :: outs, st3)

/-- A run's terminal result: either a value returned by
`run_incident_agent`, or a propagated (uncaught) Python exception. -/
inductive Outcome where
  | crashed (e : PyErr)
  | value (v : JVal)
deriving Repr

/-- `{"status": "failed", "reason": reason}`. -/
def failObj (reason : String) : JVal :=
  .obj [("status", .str "failed"), ("reason", .str reason)]

/-- The `openai_non_json` failure carrying the offending raw text. -/
def nonJsonObj (raw : String) : JVal :=
  .obj [("status", .str "failed"), ("reason", .str "openai_non_json"), ("raw", .str raw)]

/-- Result of one orchestration step: terminal, or continue with the
extended conversation and updated world. -/
inductive RoundRes where
  | term (o : Outcome)
  | next (items : List JVal) (st : WState)

/-- One iteration of the `for _ in range(6)` loop: one transport call,
appending output turns, then either resolving tool calls or extracting
and parsing the final text. -/
def agentRound (env : Env) (items : List JVal) (st : WState) : RoundRes :=
  match jGetE (env.transport items) "output" (.arr []) with
  | .error e => .term (.crashed e)
  | .ok outV =>
    match outV with
    | JVal.arr outputItems =>
      (match filterFnCalls outputItems with
       | .error e => .term (.crashed e)
       | .ok calls =>
         if calls.isEmpty then
           match extractOutputText outputItems with
           | .error e => .term (.crashed e)
           | .ok s =>
             (match (if s ≠ "" then Except.ok (JVal.str s)
                     else jGetE (env.transport items) "output_text" (.str "")) with
              | .error e => .term (.crashed e)
              | .ok otext =>
                if !jTruthy otext then .term (.value (failObj "openai_empty_output"))
                else
                  match otext with
                  | JVal.str s2 =>
                    (match jloads s2 with
                     | some v => .term (.value v)
                     | none => .term (.value (nonJsonObj s2)))
                  | _ => .term (.crashed .typeError))
         else
           match processCalls env calls st with
           | .error e => .term (.crashed e)
           | .ok (outs, st2) => .next (items ++ outputItems ++ outs) st2)
    | _ => .term (.value (failObj "openai_bad_output"))

/-- The bounded loop; the second component counts transport invocations.
Exhausting the budget yields the `openai_max_steps` failure. -/
def runLoop (env : Env) : Nat → List JVal → WState → Outcome × Nat
  | 0, _, _ => (.value (failObj "openai_max_steps"), 0)
  | fuel + 1, items, st =>
    match agentRound env items st with
    | .term o => (o, 1)
    | .next items' st' =>
      let r := runLoop env fuel items' st'
      (r.1, r.2 + 1)

/-- The two seed turns of every conversation. -/
def initItems (alert : JVal) : List JVal :=
  [.obj [("type", .str "message"), ("role", .str "system"), ("content", .str SYSTEM_PROMPT)],
   .obj [("type", .str "message"), ("role", .str "user"), ("content", .str (jdump alert))]]

/-- `agent.run_incident_agent`: fail fast without a configured API key
(`if not api_key` — the empty string is falsy), otherwise run up to six
rounds. -/
def runIncidentAgent (env : Env) (apiKey : Option String) (alert : JVal) (st : WState) :
    Outcome × Nat :=
  match apiKey with
  | none => (.value (failObj "openai_not_configured"), 0)
  | some key =>
    if key = "" then (.value (failObj "openai_not_configured"), 0)
    else runLoop env 6 (initItems alert) st

/-! ## Statement vocabulary and shared concrete fixtures -/

/-- Initial world: empty stores, freshly seeded KB. -/
def stInit : WState :=
  { incidents := [], notes := [], kb := seedChunks, counter := 0, now := "T0" }

/-- A transport stub whose single output turn is a plain message with the
text `[1]`. -/
def envFinalArr : Env :=
  { transport := fun _ =>
      .obj [("output", .arr [.obj [("type", .str "message"), ("content", .str "[1]")]])],
    fixtures := fun _ _ => none, score := fun _ => 0 }

/-- A tool-call turn naming an unregistered capability. -/
def fcCallItem : JVal :=
  .obj [("type", .str "function_call"), ("name", .str "nope"),
        ("call_id", .str "c1"), ("arguments", .str "")]

/-- A transport stub that requests the same tool call on every round. -/
def envToolLoop : Env :=
  { transport := fun _ => .obj [("output", .arr [fcCallItem])],
    fixtures := fun _ _ => none, score := fun _ => 0 }

/-- A transport stub returning JSON `null` (never consulted by the
dispatcher-level statements that use it). -/
def envNull : Env :=
  { transport := fun _ => .null, fixtures := fun _ _ => none, score := fun _ => 0 }

/-- The alert keys whose values `create_incident_tool` threads through
Python `or`-chains into string-typed pydantic fields. -/
def alertTextFields : List String :=
  ["service", "start_time", "timestamp", "impact", "short_summary"]

/-- The alert keys whose values are probed against Python string `set`s
by `create_incident_tool`. -/
def alertEnumFields : List String :=
  ["incident_type", "signal"]

/-- Hashability of a dynamic JSON value in Python: lists and dicts are
unhashable (probing a `set` with one raises `TypeError`); strings,
numbers, booleans and `None` hash fine. -/
def jHashable : JVal → Bool
  | JVal.arr _ => false
  | JVal.obj _ => false
  | _ => true

/-- Well-typedness of an alert mapping: it is a dict, its free-text
fields (when present) are strings or falsy, its enum fields (when
present) are hashable, and `region` (when present) is a string or
`None`.  This is exactly the region in which neither the `set`
membership probes nor pydantic validation of the normalised payload can
fail. -/
def AlertWellTyped (alert : JVal) : Prop :=
  (∃ fs, alert = JVal.obj fs) ∧
  (∀ f ∈ alertTextFields, ∀ v, jLookup alert f = some v →
    jTruthy v = false ∨ ∃ s, v = JVal.str s) ∧
  (∀ f ∈ alertEnumFields, ∀ v, jLookup alert f = some v → jHashable v = true) ∧
  (∀ v, jLookup alert "region" = some v → v = JVal.null ∨ ∃ s, v = JVal.str s)

/-- Spec-side normalisation of an enum field: keep a recognised literal,
otherwise the documented fallback (§4.2 "falls back to safe defaults for
unknown incident type and signal"). -/
def specNormEnum (v : Option JVal) (allowed : List String) (fb : String) : String :=
  match v with
  | some (JVal.str s) => if s ∈ allowed then s else fb
  | _ => fb

/-- Spec-side normalisation of a free-text field: a non-empty string is
kept, anything falsy becomes the documented default. -/
def specNormText (v : Option JVal) (fb : String) : String :=
  match v with
  | some (JVal.str s) => if s = "" then fb else s
  | _ => fb

/-- Spec-side normalisation of the region: optional string. -/
def specNormRegion (v : Option JVal) : Option String :=
  match v with
  | some (JVal.str s) => some s
  | _ => none

/-- The fully normalised alert record produced for a well-typed alert
mapping, as the spec documents it. -/
def specNormAlert (fs : List (String × JVal)) (now : String) : AlertRec :=
  { incident_type := specNormEnum (fs.lookup "incident_type") allowedIncidentTypes "payments_failing",
    service := specNormText (fs.lookup "service") "unknown",
    signal := specNormEnum (fs.lookup "signal") allowedSignals "error_rate_spike",
    start_time := specNormText (fs.lookup "start_time") (specNormText (fs.lookup "timestamp") now),
    impact := specNormText (fs.lookup "impact") (specNormText (fs.lookup "short_summary") "unknown impact"),
    region := specNormRegion (fs.lookup "region") }

/-- The incident row persisted for a well-typed alert mapping. -/
def specIncidentRow (fs : List (String × JVal)) (st : WState) : IncidentRow :=
  let a := specNormAlert fs st.now
  { incident_id := "INC-" ++ toString st.counter,
    incident_type := a.incident_type, service := a.service, signal := a.signal,
    start_time := a.start_time, impact := a.impact, region := a.region,
    severity := classifySeverity a, created_at := st.now,
    assignees_json := jdump (assigneesJ (defaultAssignees a)) }

/-! ## Helper lemmas -/

theorem pyOrJ_wellTyped (v : JVal) (d : String)
    (h : jTruthy v = false ∨ ∃ s, v = JVal.str s) :
    pyOrJ v (.str d) = .str (specNormText (some v) d) := by
  rcases h with hf | ⟨s, rfl⟩
  · simp only [pyOrJ, hf, Bool.false_eq_true, if_false]
    cases v with
    | str s =>
      have hs : s = "" := by simpa [jTruthy] using hf
      simp [hs, specNormText]
    | null => rfl
    | bool b => rfl
    | num n => rfl
    | arr xs => rfl
    | obj m => rfl
  · by_cases hs : s = "" <;> simp [pyOrJ, jTruthy, hs, specNormText]

theorem pyEnumFallback_getD (o : Option JVal) (allowed : List String) (fb : String)
    (h : jHashable (o.getD .null) = true) :
    pyEnumFallback (o.getD .null) allowed fb = .ok (specNormEnum o allowed fb) := by
  rcases o with _ | v
  · rfl
  · cases v <;> first | rfl | simp [jHashable] at h

theorem specNormText_getD (o : Option JVal) (fb : String) :
    specNormText (some (o.getD .null)) fb = specNormText o fb := by
  rcases o with _ | v
  · rfl
  · cases v <;> rfl

theorem specNormRegion_getD (o : Option JVal) :
    specNormRegion (some (o.getD .null)) = specNormRegion o := by
  rcases o with _ | v
  · rfl
  · cases v <;> rfl

/-- The normalised enum value is always a recognised literal. -/
theorem specNormEnum_mem (v : Option JVal) (allowed : List String) (fb : String)
    (hfb : fb ∈ allowed) : specNormEnum v allowed fb ∈ allowed := by
  rcases v with _ | v
  · exact hfb
  · cases v with
    | str s =>
      by_cases hs : s ∈ allowed <;> simp [specNormEnum, hs, hfb]
    | null => exact hfb
    | bool b => exact hfb
    | num n => exact hfb
    | arr xs => exact hfb
    | obj m => exact hfb

theorem validateAlert_ok (it sg a b c : String) (r : JVal)
    (hit : it ∈ allowedIncidentTypes) (hsg : sg ∈ allowedSignals)
    (hr : r = JVal.null ∨ ∃ s, r = JVal.str s) :
    validateAlert { incident_type := it, service := .str a, signal := sg,
                    start_time := .str b, impact := .str c, region := r } =
      .ok { incident_type := it, service := a, signal := sg, start_time := b,
            impact := c, region := specNormRegion (some r) } := by
  rcases hr with rfl | ⟨s, rfl⟩ <;>
    simp [validateAlert, hit, hsg, specNormRegion, bind, Except.bind]

/-- Characterisation of `create_incident_tool` on a well-typed alert
mapping: the documented fallbacks are substituted, one incident row is
persisted, and id/severity/creation time are returned. -/
theorem createIncidentTool_ok (fs : List (String × JVal)) (st : WState)
    (hText : ∀ f ∈ alertTextFields, ∀ v, (fs.lookup f) = some v →
      jTruthy v = false ∨ ∃ s, v = JVal.str s)
    (hEnum : ∀ f ∈ alertEnumFields, ∀ v, (fs.lookup f) = some v → jHashable v = true)
    (hReg : ∀ v, fs.lookup "region" = some v → v = JVal.null ∨ ∃ s, v = JVal.str s) :
    createIncidentTool (.obj fs) st =
      .ok (.obj [("incident_id", .str ("INC-" ++ toString st.counter)),
                 ("severity", .str (classifySeverity (specNormAlert fs st.now))),
                 ("created_at", .str st.now)],
           { st with incidents := st.incidents ++ [specIncidentRow fs st],
                     counter := st.counter + 1 }) := by
  have hWT : ∀ f ∈ alertTextFields,
      jTruthy ((fs.lookup f).getD .null) = false ∨
        ∃ s, (fs.lookup f).getD .null = JVal.str s := by
    intro f hf
    cases h : fs.lookup f with
    | none => exact Or.inl rfl
    | some v => simpa using hText f hf v h
  have eS := pyOrJ_wellTyped ((fs.lookup "service").getD .null) "unknown"
    (hWT "service" (by simp [alertTextFields]))
  have eTS := pyOrJ_wellTyped ((fs.lookup "timestamp").getD .null) st.now
    (hWT "timestamp" (by simp [alertTextFields]))
  have eST := pyOrJ_wellTyped ((fs.lookup "start_time").getD .null)
    (specNormText (some ((fs.lookup "timestamp").getD .null)) st.now)
    (hWT "start_time" (by simp [alertTextFields]))
  have eSS := pyOrJ_wellTyped ((fs.lookup "short_summary").getD .null) "unknown impact"
    (hWT "short_summary" (by simp [alertTextFields]))
  have eI := pyOrJ_wellTyped ((fs.lookup "impact").getD .null)
    (specNormText (some ((fs.lookup "short_summary").getD .null)) "unknown impact")
    (hWT "impact" (by simp [alertTextFields]))
  have hRegv : (fs.lookup "region").getD .null = JVal.null ∨
      ∃ s, (fs.lookup "region").getD .null = JVal.str s := by
    cases h : fs.lookup "region" with
    | none => exact Or.inl rfl
    | some v => simpa using hReg v h
  have hH : ∀ f ∈ alertEnumFields, jHashable ((fs.lookup f).getD .null) = true := by
    intro f hf
    cases h : fs.lookup f with
    | none => rfl
    | some v => simpa using hEnum f hf v h
  have eIT := pyEnumFallback_getD (fs.lookup "incident_type") allowedIncidentTypes
    "payments_failing" (hH "incident_type" (by simp [alertEnumFields]))
  have eSG := pyEnumFallback_getD (fs.lookup "signal") allowedSignals
    "error_rate_spike" (hH "signal" (by simp [alertEnumFields]))
  have eV := validateAlert_ok
    (specNormEnum (fs.lookup "incident_type") allowedIncidentTypes "payments_failing")
    (specNormEnum (fs.lookup "signal") allowedSignals "error_rate_spike")
    (specNormText (some ((fs.lookup "service").getD .null)) "unknown")
    (specNormText (some ((fs.lookup "start_time").getD .null))
      (specNormText (some ((fs.lookup "timestamp").getD .null)) st.now))
    (specNormText (some ((fs.lookup "impact").getD .null))
      (specNormText (some ((fs.lookup "short_summary").getD .null)) "unknown impact"))
    ((fs.lookup "region").getD .null)
    (specNormEnum_mem _ _ _ (by decide))
    (specNormEnum_mem _ _ _ (by decide))
    hRegv
  simp only [createIncidentTool, jGetE, bind, Except.bind, eS, eST, eTS, eSS, eI,
    eIT, eSG]
  rw [eV]
  simp [specIncidentRow, specNormAlert, specNormText_getD, specNormRegion_getD]

/-! ## Claim C5 -/

/-- C5: knowledge-base query sanitisation (`_to_fts_match_query`) is total
and maps any input without word tokens — including the empty string — to
the empty (safe) query string rather than a malformed query. -/
theorem fts_sanitizer_empty_token_safe (s : String) (h : wordTokens s = []) :
    toFtsMatchQuery s = "" := by
  simp [toFtsMatchQuery, h]

theorem fts_sanitizer_empty_token_safe_witness :
    wordTokens ":--- !?" = [] ∧ toFtsMatchQuery ":--- !?" = "" :=
  ⟨by decide, fts_sanitizer_empty_token_safe ":--- !?" (by decide)⟩

/-! ## Claim C1 -/

/-- C1: `kb_search` does NOT tokenize/quote the raw query before handing
it to the FTS5 engine — the sanitizer `_to_fts_match_query` exists but is
never applied.  On the spec's own example query `sev1-outage:"test"` the
MATCH argument is the raw text, which the FTS5 query grammar rejects
(raising `sqlite3.OperationalError`), while the sanitised form
`"sev1" "outage" "test"` would have been accepted. -/
theorem kb_search_unsanitized_metachars_error :
    kbMatchArg "sev1-outage:\"test\"" none = "sev1-outage:\"test\"" ∧
    ftsParse "sev1-outage:\"test\"" = none ∧
    kbSearch (fun _ => 0) seedChunks "sev1-outage:\"test\"" 3 none =
      .error .operationalError ∧
    toFtsMatchQuery "sev1-outage:\"test\"" = "\"sev1\" \"outage\" \"test\"" ∧
    (ftsParse (toFtsMatchQuery "sev1-outage:\"test\"")).isSome = true :=
  ⟨rfl, rfl, rfl, rfl, rfl⟩

/-! ## Claim C3 -/

/-- C3 counterexample: a tool-call request for the *known* capability
`create_incident` with an empty argument mapping makes the dispatcher
raise `KeyError("alert")` (an uncaught exception), contradicting the
claim that no malformed argument mapping can cause a raise. -/
theorem dispatch_missing_required_arg_raises_cex :
    dispatchTool envNull "create_incident" (.obj []) stInit =
      .error (.keyError "alert") := rfl

/-- C3 (amended): an unknown capability name always yields the structured
`{ok: false, reason: unknown tool ...}` value without raising; for known
capabilities, however, required arguments are read with `args[...]`, so a
missing required key raises `KeyError` (see the counterexample). -/
theorem dispatch_unknown_tool_structured_error (env : Env) (name : String) (args : JVal)
    (st : WState)
    (h : name ∉ ["create_incident", "assign_owners", "get_evidence", "kb_search", "add_note"]) :
    dispatchTool env name args st = .ok (okFalse ("unknown tool " ++ name), st) := by
  simp only [List.mem_cons, List.not_mem_nil, or_false, not_or] at h
  obtain ⟨h1, h2, h3, h4, h5⟩ := h
  simp [dispatchTool, h1, h2, h3, h4, h5]

theorem dispatch_unknown_tool_structured_error_witness :
    dispatchTool envNull "frobnicate" (.obj []) stInit =
      .ok (okFalse ("unknown tool " ++ "frobnicate"), stInit) :=
  dispatch_unknown_tool_structured_error envNull "frobnicate" (.obj []) stInit (by decide)

/-! ## Claim C8 -/

/-- C8 counterexample: an alert mapping whose `service` value is the JSON
number `1` (truthy, non-string) makes `create_incident_tool` raise a
pydantic `ValidationError` instead of substituting a default — so the
claim does not hold for *every* alert mapping. -/
theorem create_incident_nonstring_field_raises_cex :
    createIncidentTool (.obj [("service", .num 1)]) stInit =
      .error .validationError := rfl

/-- A concrete alert mapping carrying only an unrecognised incident type. -/
def wAlert : JVal := .obj [("incident_type", .str "weird")]

/-- C8 (amended): for every alert mapping whose consulted free-text
fields are strings or falsy, whose enum fields are hashable, and whose
region is a string or null — including any hashable unrecognised or
missing incident type and signal — the tool substitutes the documented
fallbacks, persists exactly one new incident row, and returns its id,
severity and creation time. -/
theorem create_incident_fallback_defaults (alert : JVal) (st : WState)
    (h : AlertWellTyped alert) :
    ∃ fs, alert = JVal.obj fs ∧
      createIncidentTool alert st =
        .ok (.obj [("incident_id", .str ("INC-" ++ toString st.counter)),
                   ("severity", .str (classifySeverity (specNormAlert fs st.now))),
                   ("created_at", .str st.now)],
             { st with incidents := st.incidents ++ [specIncidentRow fs st],
                       counter := st.counter + 1 }) := by
  obtain ⟨⟨fs, rfl⟩, hText, hEnum, hReg⟩ := h
  exact ⟨fs, rfl, createIncidentTool_ok fs st
    (by simpa [jLookup] using hText) (by simpa [jLookup] using hEnum)
    (by simpa [jLookup] using hReg)⟩

theorem create_incident_fallback_defaults_witness :
    ∃ fs, wAlert = JVal.obj fs ∧
      createIncidentTool wAlert stInit =
        .ok (.obj [("incident_id", .str ("INC-" ++ toString stInit.counter)),
                   ("severity", .str (classifySeverity (specNormAlert fs stInit.now))),
                   ("created_at", .str stInit.now)],
             { stInit with incidents := stInit.incidents ++ [specIncidentRow fs stInit],
                           counter := stInit.counter + 1 }) :=
  create_incident_fallback_defaults wAlert stInit
    ⟨⟨_, rfl⟩,
     by intro f hf v hv; fin_cases hf <;> simp [wAlert, jLookup, List.lookup] at hv,
     by
       intro f hf v hv
       fin_cases hf
       · simp [wAlert, jLookup, List.lookup] at hv
         subst hv
         rfl
       · simp [wAlert, jLookup, List.lookup] at hv,
     by intro v hv; simp [wAlert, jLookup, List.lookup] at hv⟩

/-! ## Claim C10 -/

/-- C10 counterexample: an alert whose `incident_type` is the JSON array
`[]` — a garbage incident type by the claim's measure — makes
`create_incident_tool` raise `TypeError` at the `set`-membership probe
(`incident_type not in allowed_incident_types` hashes the unhashable
list) instead of normalising to `payments_failing`, so a garbage
incident type does *not* always produce a SEV1 payments incident. -/
theorem unhashable_incident_type_raises_cex :
    createIncidentTool (.obj [("incident_type", .arr [])]) stInit =
      .error .typeError := rfl

/-- C10 (amended): any well-typed alert (hashable enum fields) whose
incident type is missing, a hashable non-string value, or a string not
among the three recognised categories is normalised to
`payments_failing`, which classifies as SEV1 and receives the payments
assignee pairing; an unhashable incident type instead raises `TypeError`
(see the counterexample). -/
theorem unrecognized_type_sev1_payments (alert : JVal) (st : WState)
    (h : AlertWellTyped alert)
    (hty : ∀ s, jLookup alert "incident_type" = some (JVal.str s) →
      s ∉ allowedIncidentTypes) :
    ∃ fs, alert = JVal.obj fs ∧
      (specNormAlert fs st.now).incident_type = "payments_failing" ∧
      classifySeverity (specNormAlert fs st.now) = "SEV1" ∧
      defaultAssignees (specNormAlert fs st.now) =
        [("Backend Oncall", "Primary"), ("Payments Team", "Secondary")] ∧
      createIncidentTool alert st =
        .ok (.obj [("incident_id", .str ("INC-" ++ toString st.counter)),
                   ("severity", .str "SEV1"), ("created_at", .str st.now)],
             { st with incidents := st.incidents ++ [specIncidentRow fs st],
                       counter := st.counter + 1 }) := by
  obtain ⟨⟨fs, rfl⟩, hText, hEnum, hReg⟩ := h
  have hIT : (specNormAlert fs st.now).incident_type = "payments_failing" := by
    simp only [specNormAlert]
    cases hl : fs.lookup "incident_type" with
    | none => rfl
    | some v =>
      cases v with
      | str s =>
        have := hty s (by simpa [jLookup] using hl)
        simp [specNormEnum, this]
      | null => rfl
      | bool b => rfl
      | num n => rfl
      | arr xs => rfl
      | obj m => rfl
  have hSev : classifySeverity (specNormAlert fs st.now) = "SEV1" := by
    simp [classifySeverity, hIT]
  have hAsg : defaultAssignees (specNormAlert fs st.now) =
      [("Backend Oncall", "Primary"), ("Payments Team", "Secondary")] := by
    simp [defaultAssignees, hIT]
  refine ⟨fs, rfl, hIT, hSev, hAsg, ?_⟩
  have := createIncidentTool_ok fs st
    (by simpa [jLookup] using hText) (by simpa [jLookup] using hEnum)
    (by simpa [jLookup] using hReg)
  rw [this, hSev]

theorem unrecognized_type_sev1_payments_witness :
    ∃ fs, (JVal.obj [] : JVal) = JVal.obj fs ∧
      (specNormAlert fs stInit.now).incident_type = "payments_failing" ∧
      classifySeverity (specNormAlert fs stInit.now) = "SEV1" ∧
      defaultAssignees (specNormAlert fs stInit.now) =
        [("Backend Oncall", "Primary"), ("Payments Team", "Secondary")] ∧
      createIncidentTool (JVal.obj []) stInit =
        .ok (.obj [("incident_id", .str ("INC-" ++ toString stInit.counter)),
                   ("severity", .str "SEV1"), ("created_at", .str stInit.now)],
             { stInit with incidents := stInit.incidents ++ [specIncidentRow fs stInit],
                           counter := stInit.counter + 1 }) :=
  unrecognized_type_sev1_payments (JVal.obj []) stInit
    ⟨⟨_, rfl⟩,
     by intro f hf v hv; simp [jLookup, List.lookup] at hv,
     by intro f hf v hv; simp [jLookup, List.lookup] at hv,
     by intro v hv; simp [jLookup, List.lookup] at hv⟩
    (by intro s hv; simp [jLookup, List.lookup] at hv)

/-! ## Orchestrator lemmas -/

/-- Any terminal value of one round is a propagated exception, a failure
descriptor, the non-JSON failure, or the JSON parse of the final text. -/
theorem agentRound_term_shape (env : Env) (items : List JVal) (st : WState) (o : Outcome)
    (h : agentRound env items st = .term o) :
    (∃ e, o = .crashed e) ∨ (∃ r, o = .value (failObj r)) ∨
    (∃ raw, o = .value (nonJsonObj raw)) ∨
    (∃ s v, jloads s = some v ∧ o = .value v) := by
  unfold agentRound at h
  repeat' split at h
  all_goals try (cases h)
  all_goals first
    | exact Or.inl ⟨_, rfl⟩
    | exact Or.inr (Or.inl ⟨_, rfl⟩)
    | exact Or.inr (Or.inr (Or.inl ⟨_, rfl⟩))
    | exact Or.inr (Or.inr (Or.inr ⟨_, _, by assumption, rfl⟩))

theorem runLoop_shape (env : Env) (fuel : Nat) (items : List JVal) (st : WState) :
    (∃ e, (runLoop env fuel items st).1 = .crashed e) ∨
    (∃ r, (runLoop env fuel items st).1 = .value (failObj r)) ∨
    (∃ raw, (runLoop env fuel items st).1 = .value (nonJsonObj raw)) ∨
    (∃ s v, jloads s = some v ∧ (runLoop env fuel items st).1 = .value v) := by
  induction fuel generalizing items st with
  | zero => exact Or.inr (Or.inl ⟨_, rfl⟩)
  | succ n ih =>
    simp only [runLoop]
    cases hr : agentRound env items st with
    | term o => simpa using agentRound_term_shape env items st o hr
    | next its st' => simpa using ih its st'

theorem runLoop_calls_le (env : Env) (fuel : Nat) (items : List JVal) (st : WState) :
    (runLoop env fuel items st).2 ≤ fuel := by
  induction fuel generalizing items st with
  | zero => simp [runLoop]
  | succ n ih =>
    simp only [runLoop]
    cases hr : agentRound env items st with
    | term o => simp
    | next its st' => simpa using Nat.succ_le_succ (ih its st')

/-- A transport whose every round requests tool calls (and whose calls
resolve without raising). -/
def NonTerminalEnv (env : Env) : Prop :=
  ∀ items st, ∃ its st', agentRound env items st = .next its st'

theorem runLoop_nonterminal (env : Env) (h : NonTerminalEnv env) (fuel : Nat)
    (items : List JVal) (st : WState) :
    runLoop env fuel items st = (.value (failObj "openai_max_steps"), fuel) := by
  induction fuel generalizing items st with
  | zero => rfl
  | succ n ih =>
    obtain ⟨its, st', hr⟩ := h items st
    simp only [runLoop, hr, ih its st']

/-! ## Claim C2 -/

/-- C2 counterexample: a transport whose final message text is `[1]`
makes the run return the JSON array `[1]` itself — a value that carries
neither the required verdict fields (no `incident_id`, not even an
object) nor a failure descriptor, refuting the claimed dichotomy. -/
theorem agent_verdict_schema_not_enforced_cex :
    (runIncidentAgent envFinalArr (some "k") .null stInit).1 = .value (.arr [.num 1]) ∧
    jLookup (.arr [.num 1]) "incident_id" = none ∧
    jLookup (.arr [.num 1]) "status" = none := ⟨rfl, rfl, rfl⟩

/-- C2 (amended): every run returns either the JSON value parsed from the
model's final text as-is (the verdict schema is prompted for but never
validated), or a `status: failed` descriptor with a reason code (possibly
carrying the raw text), or propagates an uncaught tool exception. -/
theorem agent_result_is_parsed_json_or_failure (env : Env) (apiKey : Option String)
    (alert : JVal) (st : WState) :
    (∃ e, (runIncidentAgent env apiKey alert st).1 = .crashed e) ∨
    (∃ r, (runIncidentAgent env apiKey alert st).1 = .value (failObj r)) ∨
    (∃ raw, (runIncidentAgent env apiKey alert st).1 = .value (nonJsonObj raw)) ∨
    (∃ s v, jloads s = some v ∧ (runIncidentAgent env apiKey alert st).1 = .value v) := by
  cases apiKey with
  | none => exact Or.inr (Or.inl ⟨_, rfl⟩)
  | some key =>
    by_cases hk : key = ""
    · subst hk
      exact Or.inr (Or.inl ⟨_, rfl⟩)
    · simp only [runIncidentAgent, hk, if_neg, if_false]
      exact runLoop_shape env 6 (initItems alert) st

/-! ## Claim C4 -/

/-- C4: a run never makes more than 6 transport invocations, and when
every round is non-terminal the run ends with the `openai_max_steps`
failure descriptor after exactly 6 invocations (rather than crashing or
looping further). -/
theorem agent_transport_budget :
    (∀ env apiKey alert st, (runIncidentAgent env apiKey alert st).2 ≤ 6) ∧
    (∀ env key alert st, key ≠ "" → NonTerminalEnv env →
      runIncidentAgent env (some key) alert st =
        (.value (failObj "openai_max_steps"), 6)) := by
  constructor
  · intro env apiKey alert st
    cases apiKey with
    | none => simp [runIncidentAgent]
    | some key =>
      by_cases hk : key = "" <;> simp [runIncidentAgent, hk, runLoop_calls_le]
  · intro env key alert st hk hnt
    simp [runIncidentAgent, hk, runLoop_nonterminal env hnt]

theorem agent_transport_budget_witness :
    runIncidentAgent envToolLoop (some "k") .null stInit =
      (.value (failObj "openai_max_steps"), 6) ∧
    (runIncidentAgent envToolLoop (some "k") .null stInit).2 ≤ 6 :=
  ⟨agent_transport_budget.2 envToolLoop "k" .null stInit (by decide)
     (fun items st => ⟨_, _, rfl⟩),
   agent_transport_budget.1 envToolLoop (some "k") .null stInit⟩

/-! ## Claim C9 -/

/-- The correlation identifier of a turn (`call_id`, `None` if absent). -/
def callIdOfJ (v : JVal) : JVal := (jLookup v "call_id").getD .null

theorem jGetE_ok_val (call : JVal) (k : String) (d v : JVal)
    (h : jGetE call k d = .ok v) : v = (jLookup call k).getD d := by
  cases call with
  | obj fs =>
    simp only [jGetE] at h
    cases h
    rfl
  | null => cases h
  | bool b => cases h
  | num n => cases h
  | str s => cases h
  | arr xs => cases h

theorem callIdOf_mkCallOutput (cid r : JVal) :
    callIdOfJ (mkCallOutput cid r) = cid := rfl

theorem type_mkCallOutput (cid r : JVal) :
    jLookup (mkCallOutput cid r) "type" = some (.str "function_call_output") := rfl

/-- `processCalls` appends exactly one `function_call_output` turn per
tool call, in order and with matching correlation identifiers. -/
theorem processCalls_outs (env : Env) (calls : List JVal) (st : WState) (outs : List JVal)
    (st' : WState) (h : processCalls env calls st = .ok (outs, st')) :
    outs.length = calls.length ∧
    outs.map callIdOfJ = calls.map callIdOfJ ∧
    ∀ o ∈ outs, jLookup o "type" = some (.str "function_call_output") := by
  induction calls generalizing st outs st' with
  | nil =>
    simp only [processCalls] at h
    cases h
    simp
  | cons call rest ih =>
    simp only [processCalls] at h
    cases heqN : jGetE call "name" JVal.null with
    | error e => simp [heqN, bind, Except.bind] at h
    | ok nameV =>
    cases heqC : jGetE call "call_id" JVal.null with
    | error e => simp [heqN, heqC, bind, Except.bind] at h
    | ok callId =>
    cases heqA : jGetE call "arguments" JVal.null with
    | error e => simp [heqN, heqC, heqA, bind, Except.bind] at h
    | ok rawArgs =>
    cases heqR : resolveCall env nameV (parseToolArgs rawArgs) st with
    | error e => simp [heqN, heqC, heqA, heqR, bind, Except.bind] at h
    | ok pr =>
    obtain ⟨result, st2⟩ := pr
    cases heqP : processCalls env rest st2 with
    | error e => simp [heqN, heqC, heqA, heqR, heqP, bind, Except.bind] at h
    | ok pr2 =>
    obtain ⟨outs2, st3⟩ := pr2
    simp only [heqN, heqC, heqA, heqR, heqP, bind, Except.bind] at h
    cases h
    obtain ⟨hlen, hmap, hty⟩ := ih _ _ _ heqP
    have hcid : callId = callIdOfJ call := by
      simpa [callIdOfJ] using jGetE_ok_val call "call_id" JVal.null callId heqC
    refine ⟨by simp [hlen], ?_, ?_⟩
    · simp [callIdOf_mkCallOutput, hmap, hcid]
    · intro o ho
      rcases List.mem_cons.mp ho with rfl | ho'
      · exact type_mkCallOutput callId result
      · exact hty o ho'

/-- C9: whenever a round continues, the conversation handed to the next
transport invocation is the old one, then all returned output turns in
the model's order, then exactly one `function_call_output` turn per tool
call with positionally matching `call_id`s; when the call identifiers of
the round are distinct, each call has exactly one matching result turn. -/
theorem agent_round_toolcall_correlation (env : Env) (items : List JVal) (st : WState)
    (its : List JVal) (st' : WState)
    (h : agentRound env items st = .next its st') :
    ∃ outputItems calls outs,
      jGetE (env.transport items) "output" (.arr []) = .ok (.arr outputItems) ∧
      filterFnCalls outputItems = .ok calls ∧
      calls ≠ [] ∧
      its = items ++ outputItems ++ outs ∧
      outs.length = calls.length ∧
      outs.map callIdOfJ = calls.map callIdOfJ ∧
      (∀ o ∈ outs, jLookup o "type" = some (.str "function_call_output")) ∧
      ((calls.map callIdOfJ).Nodup →
        ∀ j, (hj : j < calls.length) → ∀ i, (hi : i < outs.length) →
          (callIdOfJ (outs.get ⟨i, hi⟩) = callIdOfJ (calls.get ⟨j, hj⟩) ↔ i = j)) := by
  unfold agentRound at h
  cases heqO : jGetE (env.transport items) "output" (JVal.arr []) with
  | error e => simp [heqO] at h
  | ok outV =>
  simp only [heqO] at h
  cases outV with
  | null => simp at h
  | bool b => simp at h
  | num n => simp at h
  | str s => simp at h
  | obj m => simp at h
  | arr outputItems =>
  cases heqF : filterFnCalls outputItems with
  | error e => simp [heqF] at h
  | ok calls =>
  simp only [heqF] at h
  by_cases hemp : calls.isEmpty
  · rw [if_pos hemp] at h
    repeat' split at h
    all_goals cases h
  · rw [if_neg hemp] at h
    cases heqP : processCalls env calls st with
    | error e => simp [heqP] at h
    | ok pr =>
    obtain ⟨outs, st2⟩ := pr
    simp only [heqP] at h
    cases h
    obtain ⟨hlen, hmap, hty⟩ := processCalls_outs env calls st outs _ heqP
    refine ⟨outputItems, calls, outs, rfl, heqF,
      by simpa [List.isEmpty_iff] using hemp, rfl, hlen, hmap, hty, ?_⟩
    intro hnd j hj i hi
    have hi2 : i < (outs.map callIdOfJ).length := by simpa using hi
    have hj2 : j < (calls.map callIdOfJ).length := by simpa using hj
    have hget : callIdOfJ (outs.get ⟨i, hi⟩) =
        (calls.map callIdOfJ).get ⟨i, by rw [← hmap]; exact hi2⟩ := by
      rw [← List.get_of_eq hmap ⟨i, hi2⟩]
      simp
    have hgetj : callIdOfJ (calls.get ⟨j, hj⟩) =
        (calls.map callIdOfJ).get ⟨j, hj2⟩ := by simp
    rw [hget, hgetj, hnd.get_inj_iff]
    exact ⟨fun he => congrArg Fin.val he, fun he => Fin.ext he⟩

/-- The tool-result turn the dispatcher appends for `fcCallItem`. -/
def fcOutItem : JVal :=
  mkCallOutput (.str "c1") (okFalse ("unknown tool " ++ "nope"))

theorem agent_round_toolcall_correlation_witness :
    ∃ outputItems calls outs,
      jGetE (envToolLoop.transport []) "output" (.arr []) = .ok (.arr outputItems) ∧
      filterFnCalls outputItems = .ok calls ∧
      calls ≠ [] ∧
      [fcCallItem, fcOutItem] = [] ++ outputItems ++ outs ∧
      outs.length = calls.length ∧
      outs.map callIdOfJ = calls.map callIdOfJ ∧
      (∀ o ∈ outs, jLookup o "type" = some (.str "function_call_output")) ∧
      ((calls.map callIdOfJ).Nodup →
        ∀ j, (hj : j < calls.length) → ∀ i, (hi : i < outs.length) →
          (callIdOfJ (outs.get ⟨i, hi⟩) = callIdOfJ (calls.get ⟨j, hj⟩) ↔ i = j)) :=
  agent_round_toolcall_correlation envToolLoop [] stInit
    [fcCallItem, fcOutItem] stInit rfl

/-! ## Claim C6 -/

/-- A chunk tagged `sev1` whose text shares no other term with the
severity OR-list (used to separate OR- from AND-semantics). -/
def sevTaggedChunk : Chunk :=
  { chunk_id := "demo-001", title := "Latency checklist", tags := "sev1",
    content := "Reduce latency with caching.", source := "demo.md" }

/-- C6: the severity-query rewrite does not behave as claimed.
(a) On the HTTP endpoint, the rewritten `" OR "`-joined list is passed
through `normalize_fts_token`, whose lower-casing turns the
case-sensitive FTS5 `OR` operators into the literal search term `or`, so
the query actually executed is a *conjunction* of `{sev, or, severity,
rubric, policy}` plus the mentioned tokens — a chunk tagged `sev1` alone
is not surfaced by it, although the claimed OR-list would surface it.
(b) On the agent tool path (`search_kb_tool` → `kb_search`) the query
containing severity tokens is executed literally, with no rewrite at all. -/
theorem severity_rewrite_lowercased_or_divergence :
    endpointNormQuery "sev1 rubric" = "sev or severity or rubric or policy or sev1" ∧
    ftsEvalStr "sev or severity or rubric or policy or sev1" sevTaggedChunk =
      some false ∧
    ftsEvalStr "sev OR severity OR rubric OR policy OR sev1" sevTaggedChunk =
      some true ∧
    sevRewriteCond "sev1 rubric" = true ∧
    kbMatchArg "sev1 rubric" none = "sev1 rubric" :=
  ⟨by decide, by decide, by decide, by decide, by decide⟩

/-! ## Lexer composition lemmas (towards C7) -/

theorem flushTok_nil (ts : List Tok) : flushTok [] ts = ts := rfl

theorem flushTok_app (pend : List Char) (ts us : List Tok) :
    flushTok pend ts ++ us = flushTok pend (ts ++ us) := by
  cases pend <;> simp [flushTok]

theorem map_eq_some {f : List Tok → List Tok} {x : Option (List Tok)} {ts : List Tok}
    (h : f <$> x = some ts) : ∃ ts', x = some ts' ∧ ts = f ts' := by
  cases x with
  | none => simp at h
  | some ts' => exact ⟨ts', rfl, by simpa using h.symm⟩

/-- Word characters accumulate into the pending bareword. -/
theorem lexGo_wordChars (w : List Char) (cs : List Char) (pend : List Char)
    (hw : ∀ c ∈ w, wordChar c = true) :
    lexGo (w ++ cs) (.norm pend) = lexGo cs (.norm (w.reverse ++ pend)) := by
  induction w generalizing pend with
  | nil => simp
  | cons c w ih =>
    have hc : wordChar c = true := hw c (by simp)
    have step : lexGo (c :: (w ++ cs)) (.norm pend) = lexGo (w ++ cs) (.norm (c :: pend)) := by
      simp only [lexGo]
      rw [if_pos hc]
    rw [List.cons_append, step, ih _ (fun d hd => hw d (by simp [hd]))]
    simp

/-- Appending `) …` after a cleanly lexed prefix appends `rp` and the lex
of the remainder to the prefix's tokens. -/
theorem lexGo_terminator (a : List Char) (b : List Char) (st : LexSt) (ts : List Tok)
    (h : lexGo a st = some ts) :
    lexGo (a ++ ')' :: b) st = (fun r => ts ++ Tok.rp :: r) <$> lexGo b (.norm []) := by
  induction a generalizing st ts with
  | nil =>
    cases st with
    | quo acc => simp [lexGo] at h
    | norm pend =>
      have hts : ts = flushTok pend [] := by simpa [lexGo] using h.symm
      subst hts
      rw [List.nil_append]
      rw [show lexGo (')' :: b) (.norm pend) =
        (fun r => flushTok pend (Tok.rp :: r)) <$> lexGo b (.norm []) from rfl]
      cases lexGo b (.norm []) with
      | none => rfl
      | some u => simp [flushTok_app]
  | cons c a ih =>
    cases st with
    | quo acc =>
      by_cases hc : c = '"'
      · subst hc
        have hstep : ∀ rest : List Char, lexGo ('"' :: rest) (.quo acc) =
            (fun r => Tok.quoted (String.mk acc.reverse) :: r) <$> lexGo rest (.norm []) :=
          fun _ => rfl
        rw [hstep] at h
        obtain ⟨ts', h', rfl⟩ := map_eq_some h
        rw [List.cons_append, hstep, ih _ _ h']
        cases lexGo b (.norm []) <;> rfl
      · have hstep : ∀ rest : List Char, lexGo (c :: rest) (.quo acc) =
            lexGo rest (.quo (c :: acc)) := by
          intro rest
          simp only [lexGo]
          rw [if_neg hc]
        rw [hstep] at h
        rw [List.cons_append, hstep]
        exact ih _ _ h
    | norm pend =>
      by_cases h1 : wordChar c
      · have hstep : ∀ rest : List Char, lexGo (c :: rest) (.norm pend) =
            lexGo rest (.norm (c :: pend)) := by
          intro rest
          simp only [lexGo]
          rw [if_pos h1]
        rw [hstep] at h
        rw [List.cons_append, hstep]
        exact ih _ _ h
      · by_cases h2 : c.isWhitespace
        · have hstep : ∀ rest : List Char, lexGo (c :: rest) (.norm pend) =
              flushTok pend <$> lexGo rest (.norm []) := by
            intro rest
            simp only [lexGo]
            rw [if_neg h1, if_pos h2]
          rw [hstep] at h
          obtain ⟨ts', h', rfl⟩ := map_eq_some h
          rw [List.cons_append, hstep, ih _ _ h']
          cases lexGo b (.norm []) <;> simp [flushTok_app]
        · by_cases h3 : c = '('
          · subst h3
            have hstep : ∀ rest : List Char, lexGo ('(' :: rest) (.norm pend) =
                (fun r => flushTok pend (Tok.lp :: r)) <$> lexGo rest (.norm []) :=
              fun _ => rfl
            rw [hstep] at h
            obtain ⟨ts', h', rfl⟩ := map_eq_some h
            rw [List.cons_append, hstep, ih _ _ h']
            cases lexGo b (.norm []) <;> simp [flushTok_app]
          · by_cases h4 : c = ')'
            · subst h4
              have hstep : ∀ rest : List Char, lexGo (')' :: rest) (.norm pend) =
                  (fun r => flushTok pend (Tok.rp :: r)) <$> lexGo rest (.norm []) :=
                fun _ => rfl
              rw [hstep] at h
              obtain ⟨ts', h', rfl⟩ := map_eq_some h
              rw [List.cons_append, hstep, ih _ _ h']
              cases lexGo b (.norm []) <;> simp [flushTok_app]
            · by_cases h5 : c = ':'
              · subst h5
                have hstep : ∀ rest : List Char, lexGo (':' :: rest) (.norm pend) =
                    (fun r => flushTok pend (Tok.colon :: r)) <$> lexGo rest (.norm []) :=
                  fun _ => rfl
                rw [hstep] at h
                obtain ⟨ts', h', rfl⟩ := map_eq_some h
                rw [List.cons_append, hstep, ih _ _ h']
                cases lexGo b (.norm []) <;> simp [flushTok_app]
              · by_cases h6 : c = '-'
                · subst h6
                  have hstep : ∀ rest : List Char, lexGo ('-' :: rest) (.norm pend) =
                      (fun r => flushTok pend (Tok.minus :: r)) <$> lexGo rest (.norm []) :=
                    fun _ => rfl
                  rw [hstep] at h
                  obtain ⟨ts', h', rfl⟩ := map_eq_some h
                  rw [List.cons_append, hstep, ih _ _ h']
                  cases lexGo b (.norm []) <;> simp [flushTok_app]
                · by_cases h7 : c = '"'
                  · subst h7
                    have hstep : ∀ rest : List Char, lexGo ('"' :: rest) (.norm pend) =
                        flushTok pend <$> lexGo rest (.quo []) :=
                      fun _ => rfl
                    rw [hstep] at h
                    obtain ⟨ts', h', rfl⟩ := map_eq_some h
                    rw [List.cons_append, hstep, ih _ _ h']
                    cases lexGo b (.norm []) <;> simp [flushTok_app]
                  · have hstep : lexGo (c :: a) (.norm pend) = none := by
                      simp only [lexGo]
                      rw [if_neg h1, if_neg h2, if_neg h3, if_neg h4, if_neg h5,
                        if_neg h6, if_neg h7]
                    rw [hstep] at h
                    cases h

/-! ## Parser extension lemma (towards C7) -/

/-- Extensions that cannot change any parser decision: the empty
extension, or one starting with a closing paren (which stops every loop
level). -/
def ExtOK (ext : List Tok) : Prop := ext = [] ∨ ext.head? = some Tok.rp

/-- With at least the original fuel, appending an `ExtOK` suffix to the
input leaves every parse result unchanged and appends the suffix to the
remainder.  (In particular, with `ext = []`, fuel monotonicity.) -/
theorem parse_ext : ∀ f : Nat,
    (∀ f' ts q rem ext, f ≤ f' → ExtOK ext → parsePrim f ts = some (q, rem) →
      parsePrim f' (ts ++ ext) = some (q, rem ++ ext)) ∧
    (∀ f' a ts q rem ext, f ≤ f' → ExtOK ext → parseAndL f a ts = some (q, rem) →
      parseAndL f' a (ts ++ ext) = some (q, rem ++ ext)) ∧
    (∀ f' ts q rem ext, f ≤ f' → ExtOK ext → parseAnd f ts = some (q, rem) →
      parseAnd f' (ts ++ ext) = some (q, rem ++ ext)) ∧
    (∀ f' a ts q rem ext, f ≤ f' → ExtOK ext → parseOrL f a ts = some (q, rem) →
      parseOrL f' a (ts ++ ext) = some (q, rem ++ ext)) ∧
    (∀ f' ts q rem ext, f ≤ f' → ExtOK ext → parseExpr f ts = some (q, rem) →
      parseExpr f' (ts ++ ext) = some (q, rem ++ ext)) := by
  intro f
  induction f with
  | zero =>
    refine ⟨?_, ?_, ?_, ?_, ?_⟩ <;> intros <;>
      simp [parsePrim, parseAndL, parseAnd, parseOrL, parseExpr] at *
  | succ n ih =>
    obtain ⟨ihP, ihAL, ihA, ihOL, ihE⟩ := ih
    refine ⟨?_, ?_, ?_, ?_, ?_⟩
    · -- parsePrim
      intro f' ts q rem ext hf hext h
      cases f' with
      | zero => omega
      | succ m =>
      have hnm : n ≤ m := by omega
      cases ts with
      | nil => simp [parsePrim] at h
      | cons t r =>
      cases t with
      | lp =>
        simp only [parsePrim, List.cons_append, List.append_eq] at h ⊢
        cases hE : parseExpr n r with
        | none => rw [hE] at h; simp at h
        | some pr =>
          obtain ⟨q2, rem2⟩ := pr
          rw [hE] at h
          cases rem2 with
          | nil => simp at h
          | cons t2 r2 =>
            cases t2 <;> simp at h
            obtain ⟨rfl, rfl⟩ := h
            rw [ihE m r q2 (Tok.rp :: r2) ext hnm hext hE]
            simp
      | minus =>
        cases r with
        | nil => simp [parsePrim] at h
        | cons t2 r' =>
        cases t2 with
        | word c =>
          cases r' with
          | nil => simp [parsePrim] at h
          | cons t3 r2 =>
          cases t3 with
          | colon =>
            simp only [parsePrim, List.cons_append, List.append_eq] at h ⊢
            by_cases hcol : c ∈ ftsCols
            · rw [if_pos hcol] at h ⊢
              cases hP : parsePrim n r2 with
              | none => rw [hP] at h; simp at h
              | some pr =>
                obtain ⟨q2, rem2⟩ := pr
                rw [hP] at h
                simp at h
                obtain ⟨rfl, rfl⟩ := h
                rw [ihP m r2 q2 rem2 ext hnm hext hP]
            · rw [if_neg hcol] at h; simp at h
          | word w3 => simp [parsePrim] at h
          | quoted s3 => simp [parsePrim] at h
          | lp => simp [parsePrim] at h
          | rp => simp [parsePrim] at h
          | minus => simp [parsePrim] at h
        | quoted s2 => simp [parsePrim] at h
        | lp => simp [parsePrim] at h
        | rp => simp [parsePrim] at h
        | minus => simp [parsePrim] at h
        | colon => simp [parsePrim] at h
      | word w =>
        cases r with
        | nil =>
          simp only [parsePrim, List.cons_append, List.nil_append, List.append_eq] at h ⊢
          by_cases hop : w ∈ ftsOpWords
          · rw [if_pos hop] at h; simp at h
          · rw [if_neg hop] at h
            simp at h
            obtain ⟨rfl, rfl⟩ := h
            rcases hext with rfl | hrp
            · simp [parsePrim, hop]
            · cases ext with
              | nil => simp [parsePrim, hop]
              | cons e ext' =>
                have he : e = Tok.rp := by simpa using hrp
                subst he
                simp [parsePrim, hop]
        | cons t2 r' =>
        cases t2 with
        | colon =>
          simp only [parsePrim, List.cons_append, List.append_eq] at h ⊢
          by_cases hcol : w ∈ ftsCols
          · rw [if_pos hcol] at h ⊢
            cases hP : parsePrim n r' with
            | none => rw [hP] at h; simp at h
            | some pr =>
              obtain ⟨q2, rem2⟩ := pr
              rw [hP] at h
              simp at h
              obtain ⟨rfl, rfl⟩ := h
              rw [ihP m r' q2 rem2 ext hnm hext hP]
          · rw [if_neg hcol] at h; simp at h
        | word w2 =>
          simp only [parsePrim, List.cons_append, List.append_eq] at h ⊢
          by_cases hop : w ∈ ftsOpWords
          · rw [if_pos hop] at h; simp at h
          · rw [if_neg hop] at h
            simp at h
            obtain ⟨rfl, rfl⟩ := h
            simp [hop]
        | quoted s =>
          simp only [parsePrim, List.cons_append, List.append_eq] at h ⊢
          by_cases hop : w ∈ ftsOpWords
          · rw [if_pos hop] at h; simp at h
          · rw [if_neg hop] at h
            simp at h
            obtain ⟨rfl, rfl⟩ := h
            simp [hop]
        | lp =>
          simp only [parsePrim, List.cons_append, List.append_eq] at h ⊢
          by_cases hop : w ∈ ftsOpWords
          · rw [if_pos hop] at h; simp at h
          · rw [if_neg hop] at h
            simp at h
            obtain ⟨rfl, rfl⟩ := h
            simp [hop]
        | rp =>
          simp only [parsePrim, List.cons_append, List.append_eq] at h ⊢
          by_cases hop : w ∈ ftsOpWords
          · rw [if_pos hop] at h; simp at h
          · rw [if_neg hop] at h
            simp at h
            obtain ⟨rfl, rfl⟩ := h
            simp [hop]
        | minus =>
          simp only [parsePrim, List.cons_append, List.append_eq] at h ⊢
          by_cases hop : w ∈ ftsOpWords
          · rw [if_pos hop] at h; simp at h
          · rw [if_neg hop] at h
            simp at h
            obtain ⟨rfl, rfl⟩ := h
            simp [hop]
      | quoted s =>
        simp only [parsePrim, List.cons_append, List.append_eq] at h ⊢
        by_cases he : (lcTokens s).isEmpty
        · rw [if_pos he] at h; simp at h
        · rw [if_neg he] at h
          simp at h
          obtain ⟨rfl, rfl⟩ := h
          simp [he]
      | rp => simp [parsePrim] at h
      | colon => simp [parsePrim] at h
    · -- parseAndL
      intro f' a ts q rem ext hf hext h
      cases f' with
      | zero => omega
      | succ m =>
      have hnm : n ≤ m := by omega
      cases ts with
      | nil =>
        simp only [parseAndL] at h
        obtain ⟨rfl, rfl⟩ := h
        rcases hext with rfl | hrp
        · simp [parseAndL]
        · cases ext with
          | nil => simp [parseAndL]
          | cons e ext' =>
            have he : e = Tok.rp := by simpa using hrp
            subst he
            simp [parseAndL]
      | cons t r =>
      cases t with
      | word w =>
        simp only [parseAndL, List.cons_append, List.append_eq] at h ⊢
        by_cases hOR : w = "OR"
        · rw [if_pos hOR] at h ⊢
          simp at h
          obtain ⟨rfl, rfl⟩ := h
          simp
        · rw [if_neg hOR] at h ⊢
          by_cases hAND : w = "AND"
          · rw [if_pos hAND] at h ⊢
            cases hP : parsePrim n r with
            | none => rw [hP] at h; simp at h
            | some pr =>
              obtain ⟨b, r'⟩ := pr
              rw [hP] at h
              rw [ihP m r b r' ext hnm hext hP]
              simpa using ihAL m (.and a b) r' q rem ext hnm hext (by simpa using h)
          · rw [if_neg hAND] at h ⊢
            by_cases hNOT : w = "NOT"
            · rw [if_pos hNOT] at h ⊢
              cases hP : parsePrim n r with
              | none => rw [hP] at h; simp at h
              | some pr =>
                obtain ⟨b, r'⟩ := pr
                rw [hP] at h
                rw [ihP m r b r' ext hnm hext hP]
                simpa using ihAL m (.butNot a b) r' q rem ext hnm hext (by simpa using h)
            · rw [if_neg hNOT] at h ⊢
              cases hP : parsePrim n (Tok.word w :: r) with
              | none => rw [hP] at h; simp at h
              | some pr =>
                obtain ⟨b, r'⟩ := pr
                rw [hP] at h
                have hP' := ihP m (Tok.word w :: r) b r' ext hnm hext hP
                rw [List.cons_append] at hP'
                rw [hP']
                simpa using ihAL m (.and a b) r' q rem ext hnm hext (by simpa using h)
      | quoted s =>
        simp only [parseAndL, List.cons_append, List.append_eq] at h ⊢
        cases hP : parsePrim n (Tok.quoted s :: r) with
        | none => rw [hP] at h; simp at h
        | some pr =>
          obtain ⟨b, r'⟩ := pr
          rw [hP] at h
          have hP' := ihP m (Tok.quoted s :: r) b r' ext hnm hext hP
          rw [List.cons_append] at hP'
          rw [hP']
          simpa using ihAL m (.and a b) r' q rem ext hnm hext (by simpa using h)
      | lp =>
        simp only [parseAndL, List.cons_append, List.append_eq] at h ⊢
        cases hP : parsePrim n (Tok.lp :: r) with
        | none => rw [hP] at h; simp at h
        | some pr =>
          obtain ⟨b, r'⟩ := pr
          rw [hP] at h
          have hP' := ihP m (Tok.lp :: r) b r' ext hnm hext hP
          rw [List.cons_append] at hP'
          rw [hP']
          simpa using ihAL m (.and a b) r' q rem ext hnm hext (by simpa using h)
      | minus =>
        simp only [parseAndL, List.cons_append, List.append_eq] at h ⊢
        cases hP : parsePrim n (Tok.minus :: r) with
        | none => rw [hP] at h; simp at h
        | some pr =>
          obtain ⟨b, r'⟩ := pr
          rw [hP] at h
          have hP' := ihP m (Tok.minus :: r) b r' ext hnm hext hP
          rw [List.cons_append] at hP'
          rw [hP']
          simpa using ihAL m (.and a b) r' q rem ext hnm hext (by simpa using h)
      | rp =>
        simp only [parseAndL, List.cons_append, List.append_eq] at h ⊢
        simp at h
        obtain ⟨rfl, rfl⟩ := h
        simp
      | colon =>
        simp only [parseAndL, List.cons_append, List.append_eq] at h ⊢
        simp at h
        obtain ⟨rfl, rfl⟩ := h
        simp
    · -- parseAnd
      intro f' ts q rem ext hf hext h
      cases f' with
      | zero => omega
      | succ m =>
      have hnm : n ≤ m := by omega
      simp only [parseAnd] at h ⊢
      cases hP : parsePrim n ts with
      | none => rw [hP] at h; simp at h
      | some pr =>
        obtain ⟨b, r'⟩ := pr
        rw [hP] at h
        rw [ihP m ts b r' ext hnm hext hP]
        simpa using ihAL m b r' q rem ext hnm hext (by simpa using h)
    · -- parseOrL
      intro f' a ts q rem ext hf hext h
      cases f' with
      | zero => omega
      | succ m =>
      have hnm : n ≤ m := by omega
      cases ts with
      | nil =>
        simp only [parseOrL] at h
        obtain ⟨rfl, rfl⟩ := h
        rcases hext with rfl | hrp
        · simp [parseOrL]
        · cases ext with
          | nil => simp [parseOrL]
          | cons e ext' =>
            have he : e = Tok.rp := by simpa using hrp
            subst he
            simp [parseOrL]
      | cons t r =>
      cases t with
      | word w =>
        simp only [parseOrL, List.cons_append, List.append_eq] at h ⊢
        by_cases hOR : w = "OR"
        · rw [if_pos hOR] at h ⊢
          cases hA : parseAnd n r with
          | none => rw [hA] at h; simp at h
          | some pr =>
            obtain ⟨b, r'⟩ := pr
            rw [hA] at h
            rw [ihA m r b r' ext hnm hext hA]
            simpa using ihOL m (.or a b) r' q rem ext hnm hext (by simpa using h)
        · rw [if_neg hOR] at h ⊢
          simp at h
          obtain ⟨rfl, rfl⟩ := h
          simp
      | quoted s =>
        simp only [parseOrL, List.cons_append, List.append_eq] at h ⊢
        simp at h
        obtain ⟨rfl, rfl⟩ := h
        simp
      | lp =>
        simp only [parseOrL, List.cons_append, List.append_eq] at h ⊢
        simp at h
        obtain ⟨rfl, rfl⟩ := h
        simp
      | rp =>
        simp only [parseOrL, List.cons_append, List.append_eq] at h ⊢
        simp at h
        obtain ⟨rfl, rfl⟩ := h
        simp
      | minus =>
        simp only [parseOrL, List.cons_append, List.append_eq] at h ⊢
        simp at h
        obtain ⟨rfl, rfl⟩ := h
        simp
      | colon =>
        simp only [parseOrL, List.cons_append, List.append_eq] at h ⊢
        simp at h
        obtain ⟨rfl, rfl⟩ := h
        simp
    · -- parseExpr
      intro f' ts q rem ext hf hext h
      cases f' with
      | zero => omega
      | succ m =>
      have hnm : n ≤ m := by omega
      simp only [parseExpr] at h ⊢
      cases hA : parseAnd n ts with
      | none => rw [hA] at h; simp at h
      | some pr =>
        obtain ⟨b, r'⟩ := pr
        rw [hA] at h
        rw [ihA m ts b r' ext hnm hext hA]
        simpa using ihOL m b r' q rem ext hnm hext (by simpa using h)

/-! ## Boost-tag lexing and parsing (towards C7) -/

/-- Token stream of the boost tags after the first: `OR t` pairs. -/
def tagRestToks : List String → List Tok
  | [] => []
  | t :: rest => Tok.word "OR" :: Tok.word t :: tagRestToks rest

/-- Token stream of the OR-joined boost-tag list. -/
def tagToks : List String → List Tok
  | [] => []
  | t :: rest => Tok.word t :: tagRestToks rest

/-- The characters contributed by the remaining tags of
`" OR ".join(tags)`. -/
def orSepChars : List String → List Char
  | [] => []
  | t :: r => ' ' :: 'O' :: 'R' :: ' ' :: (t.toList ++ orSepChars r)

/-- A usable boost tag: a non-empty word token that is not an FTS5
operator keyword (matching what `normalize_fts_token` produces and what
the FTS5 grammar treats as a plain term). -/
def isBoostTag (t : String) : Bool :=
  !t.toList.isEmpty && t.toList.all wordChar && !(ftsOpWords.contains t)

/-- The left-associated OR of the tag phrases, as the parser builds it. -/
def orChainQ : List String → FtsQuery
  | [] => .phrase []
  | t :: rest =>
    rest.foldl (fun a t' => .or a (.phrase [pyLower t'])) (.phrase [pyLower t])

theorem strMk_toList (t : String) : String.mk t.toList = t := rfl

theorem strMk_data (t : String) : String.mk t.data = t := rfl

theorem isBoostTag_spec (t : String) (h : isBoostTag t = true) :
    t.toList ≠ [] ∧ (∀ c ∈ t.toList, wordChar c = true) ∧ t ∉ ftsOpWords := by
  simp only [isBoostTag, Bool.and_eq_true, Bool.not_eq_true', List.all_eq_true] at h
  obtain ⟨⟨h1, h2⟩, h3⟩ := h
  refine ⟨by simpa [List.isEmpty_iff] using h1, h2, ?_⟩
  intro hmem
  have h4 : ftsOpWords.elem t = true := List.elem_eq_true_of_mem hmem
  rw [show ftsOpWords.contains t = ftsOpWords.elem t from rfl, h4] at h3
  cases h3

theorem tagRestToks_length (ts : List String) :
    (tagRestToks ts).length = 2 * ts.length := by
  induction ts with
  | nil => rfl
  | cons t r ih => simp [tagRestToks, ih]; omega

theorem intercalate_go_toList (acc : String) (l : List String) :
    (String.intercalate.go acc " OR " l).toList = acc.toList ++ orSepChars l := by
  induction l generalizing acc with
  | nil => simp [String.intercalate.go, orSepChars]
  | cons t r ih =>
    rw [show String.intercalate.go acc " OR " (t :: r) =
      String.intercalate.go (acc ++ " OR " ++ t) " OR " r from rfl]
    rw [ih]
    simp [orSepChars, String.toList]

theorem intercalate_toList (t : String) (l : List String) :
    (String.intercalate " OR " (t :: l)).toList = t.toList ++ orSepChars l := by
  rw [show String.intercalate " OR " (t :: l) = String.intercalate.go t " OR " l from rfl]
  exact intercalate_go_toList t l

theorem lexGo_openParen (X : List Char) (xs : List Tok)
    (hX : lexGo X (.norm []) = some xs) :
    lexGo ('(' :: X) (.norm []) = some (Tok.lp :: xs) := by
  have e : lexGo ('(' :: X) (.norm []) =
      (fun r => flushTok [] (Tok.lp :: r)) <$> lexGo X (.norm []) := rfl
  rw [e, hX]
  rfl

theorem lexGo_orSegment (X : List Char) (xs : List Tok)
    (hX : lexGo X (.norm []) = some xs) :
    lexGo (' ' :: 'O' :: 'R' :: ' ' :: '(' :: X) (.norm []) =
      some (Tok.word "OR" :: Tok.lp :: xs) := by
  have e : lexGo (' ' :: 'O' :: 'R' :: ' ' :: '(' :: X) (.norm []) =
      flushTok [] <$> (flushTok ['R', 'O'] <$>
        ((fun r => flushTok [] (Tok.lp :: r)) <$> lexGo X (.norm []))) := rfl
  rw [e, hX]
  rfl

/-- Lexing the tag section `t0 OR t1 OR … ) b`. -/
theorem lexGo_tags (ts : List String) (t0 : String) (b : List Char) (xs : List Tok)
    (hw : ∀ t ∈ ts, isBoostTag t = true) (h0 : isBoostTag t0 = true)
    (hb : lexGo b (.norm []) = some xs) :
    lexGo ((t0.toList ++ orSepChars ts) ++ ')' :: b) (.norm []) =
      some (tagToks (t0 :: ts) ++ Tok.rp :: xs) := by
  obtain ⟨hne0, hwc0, _⟩ := isBoostTag_spec t0 h0
  induction ts generalizing t0 with
  | nil =>
    simp only [orSepChars, List.append_nil]
    rw [lexGo_wordChars t0.toList (')' :: b) [] hwc0]
    have e : lexGo (')' :: b) (.norm (t0.toList.reverse ++ [])) =
        (fun r => flushTok (t0.toList.reverse ++ []) (Tok.rp :: r)) <$>
          lexGo b (.norm []) := rfl
    rw [e, hb]
    have hpne : ¬ t0.data = [] := hne0
    simp [flushTok, List.isEmpty_iff, hpne, tagToks, tagRestToks, strMk_toList, strMk_data]
  | cons t1 ts ih =>
    have h1 := hw t1 (by simp)
    obtain ⟨hne1, hwc1, hop1⟩ := isBoostTag_spec t1 h1
    simp only [orSepChars]
    rw [show (t0.toList ++ (' ' :: 'O' :: 'R' :: ' ' :: (t1.toList ++ orSepChars ts))) ++
        ')' :: b =
        t0.toList ++ (' ' :: 'O' :: 'R' :: ' ' ::
          ((t1.toList ++ orSepChars ts) ++ ')' :: b)) from by simp]
    rw [lexGo_wordChars t0.toList _ [] hwc0]
    have e : lexGo (' ' :: 'O' :: 'R' :: ' ' ::
          ((t1.toList ++ orSepChars ts) ++ ')' :: b)) (.norm (t0.toList.reverse ++ [])) =
        flushTok (t0.toList.reverse ++ []) <$> (flushTok ['R', 'O'] <$>
          lexGo ((t1.toList ++ orSepChars ts) ++ ')' :: b) (.norm [])) := rfl
    rw [e, ih t1 (fun t ht => hw t (by simp [ht])) h1 hne1 hwc1 hop1]
    have hpne : ¬ t0.data = [] := hne0
    simp [flushTok, List.isEmpty_iff, hpne, tagToks, tagRestToks, strMk_toList, strMk_data]

/-- Lexing the whole MATCH argument built by `kb_search`. -/
theorem ftsLex_kbMatch (s : String) (qt : List Tok) (ts : List String) (t0 : String)
    (hs : lexGo s.toList (.norm []) = some qt)
    (hw : ∀ t ∈ ts, isBoostTag t = true) (h0 : isBoostTag t0 = true) :
    ftsLex ("(" ++ s ++ ") OR (" ++ String.intercalate " OR " (t0 :: ts) ++ ")") =
      some (Tok.lp :: (qt ++ Tok.rp :: Tok.word "OR" :: Tok.lp ::
        (tagToks (t0 :: ts) ++ [Tok.rp]))) := by
  unfold ftsLex
  have hchars : ("(" ++ s ++ ") OR (" ++ String.intercalate " OR " (t0 :: ts) ++ ")").toList =
      '(' :: (s.toList ++ ')' :: (' ' :: 'O' :: 'R' :: ' ' :: '(' ::
        ((t0.toList ++ orSepChars ts) ++ ')' :: ([] : List Char)))) := by
    have : ("(" ++ s ++ ") OR (" ++ String.intercalate " OR " (t0 :: ts) ++ ")").data =
        "(".data ++ s.data ++ ") OR (".data ++
          (String.intercalate " OR " (t0 :: ts)).data ++ ")".data := by
      simp [String.data_append]
    rw [show ∀ u : String, u.toList = u.data from fun _ => rfl] at *
    rw [this, show (String.intercalate " OR " (t0 :: ts)).data =
      t0.toList ++ orSepChars ts from intercalate_toList t0 ts]
    simp
  rw [hchars]
  have htag := lexGo_tags ts t0 [] [] hw h0 rfl
  have hseg := lexGo_orSegment _ _ htag
  have hterm := lexGo_terminator s.toList
    (' ' :: 'O' :: 'R' :: ' ' :: '(' :: (t0.toList ++ orSepChars ts ++ [')'])) (.norm []) qt hs
  rw [lexGo_openParen _ _ (by rw [hterm, hseg]; rfl)]

/-- Parsing a single bareword tag followed by `OR …`, `)` or the end:
one phrase, no continuation. -/
theorem parseAnd_word (f : Nat) (t : String) (X : List Tok)
    (ht : isBoostTag t = true)
    (hX : X = [] ∨ (∃ r, X = Tok.word "OR" :: r) ∨ (∃ r, X = Tok.rp :: r))
    (hf : 2 ≤ f) :
    parseAnd f (Tok.word t :: X) = some (.phrase [pyLower t], X) := by
  obtain ⟨-, -, hop⟩ := isBoostTag_spec t ht
  cases f with
  | zero => omega
  | succ m =>
  cases m with
  | zero => omega
  | succ m2 =>
  simp only [parseAnd]
  rcases hX with rfl | ⟨r, rfl⟩ | ⟨r, rfl⟩
  · simp [parsePrim, parseAndL, hop]
  · simp [parsePrim, parseAndL, hop]
  · simp [parsePrim, parseAndL, hop]

/-- Folding the remaining tags through the OR loop. -/
theorem parseOrL_tags (ts : List String) : ∀ (f : Nat) (acc : FtsQuery),
    (∀ t ∈ ts, isBoostTag t = true) → ts.length * 3 + 1 ≤ f →
    parseOrL f acc (tagRestToks ts ++ [Tok.rp]) =
      some (ts.foldl (fun a t => .or a (.phrase [pyLower t])) acc, [Tok.rp]) := by
  induction ts with
  | nil =>
    intro f acc _ hf
    cases f with
    | zero => omega
    | succ m => simp [tagRestToks, parseOrL]
  | cons t ts ih =>
    intro f acc hw hf
    cases f with
    | zero => omega
    | succ m =>
    simp only [tagRestToks, List.cons_append, List.append_eq, parseOrL, if_true]
    have hXshape : tagRestToks ts ++ [Tok.rp] = [] ∨
        (∃ r, tagRestToks ts ++ [Tok.rp] = Tok.word "OR" :: r) ∨
        (∃ r, tagRestToks ts ++ [Tok.rp] = Tok.rp :: r) := by
      cases ts with
      | nil => exact Or.inr (Or.inr ⟨[], rfl⟩)
      | cons t2 ts2 => exact Or.inr (Or.inl ⟨_, rfl⟩)
    have hA := parseAnd_word m t (tagRestToks ts ++ [Tok.rp]) (hw t (by simp)) hXshape (by
      simp at hf; omega)
    have hO := ih m (.or acc (.phrase [pyLower t])) (fun u hu => hw u (by simp [hu])) (by
      simp at hf ⊢; omega)
    simp only [hA, hO]
    simp

/-- Parsing the whole parenthesised tag group body. -/
theorem parseExpr_tags (ts : List String) (f : Nat)
    (hw : ∀ t ∈ ts, isBoostTag t = true) (hne : ts ≠ [])
    (hf : ts.length * 3 + 3 ≤ f) :
    parseExpr f (tagToks ts ++ [Tok.rp]) = some (orChainQ ts, [Tok.rp]) := by
  obtain ⟨t0, ts', rfl⟩ := List.exists_cons_of_ne_nil hne
  cases f with
  | zero => omega
  | succ m =>
  simp only [tagToks, List.cons_append, List.append_eq, parseExpr]
  have hXshape : tagRestToks ts' ++ [Tok.rp] = [] ∨
      (∃ r, tagRestToks ts' ++ [Tok.rp] = Tok.word "OR" :: r) ∨
      (∃ r, tagRestToks ts' ++ [Tok.rp] = Tok.rp :: r) := by
    cases ts' with
    | nil => exact Or.inr (Or.inr ⟨[], rfl⟩)
    | cons t2 ts2 => exact Or.inr (Or.inl ⟨_, rfl⟩)
  have hA := parseAnd_word m t0 (tagRestToks ts' ++ [Tok.rp]) (hw t0 (by simp)) hXshape (by
    simp at hf; omega)
  have hO := parseOrL_tags ts' m (.phrase [pyLower t0]) (fun u hu => hw u (by simp [hu])) (by
    simp at hf ⊢; omega)
  simp only [hA, hO]
  simp [orChainQ]

/-- Parsing the assembled `(q) OR (t1 OR t2 …)` token list. -/
theorem parseExpr_build (f : Nat) (qt : List Tok) (Q : FtsQuery) (ts : List String)
    (hq : parseExpr (qt.length * 4 + 8) qt = some (Q, []))
    (hw : ∀ t ∈ ts, isBoostTag t = true) (hne : ts ≠ [])
    (hfq : qt.length * 4 + 8 ≤ f + 1) (hft : ts.length * 3 + 3 ≤ f) :
    parseExpr (f + 4) (Tok.lp :: (qt ++ Tok.rp :: Tok.word "OR" :: Tok.lp ::
      (tagToks ts ++ [Tok.rp]))) = some (.or Q (orChainQ ts), []) := by
  have hqext := (parse_ext (qt.length * 4 + 8)).2.2.2.2 (f + 1) qt Q []
    (Tok.rp :: Tok.word "OR" :: Tok.lp :: (tagToks ts ++ [Tok.rp]))
    hfq (Or.inr rfl) hq
  rw [List.nil_append] at hqext
  have htags := parseExpr_tags ts f hw hne hft
  have h1 : parsePrim (f + 2) (Tok.lp :: (qt ++ Tok.rp :: Tok.word "OR" :: Tok.lp ::
      (tagToks ts ++ [Tok.rp]))) =
      some (Q, Tok.word "OR" :: Tok.lp :: (tagToks ts ++ [Tok.rp])) := by
    simp [parsePrim, hqext]
  have h2 : parseAndL (f + 2) Q (Tok.word "OR" :: Tok.lp :: (tagToks ts ++ [Tok.rp])) =
      some (Q, Tok.word "OR" :: Tok.lp :: (tagToks ts ++ [Tok.rp])) := by
    simp [parseAndL]
  have h3 : parseAnd (f + 3) (Tok.lp :: (qt ++ Tok.rp :: Tok.word "OR" :: Tok.lp ::
      (tagToks ts ++ [Tok.rp]))) =
      some (Q, Tok.word "OR" :: Tok.lp :: (tagToks ts ++ [Tok.rp])) := by
    simp [parseAnd, h1, h2]
  have h4 : parsePrim (f + 1) (Tok.lp :: (tagToks ts ++ [Tok.rp])) =
      some (orChainQ ts, []) := by
    simp [parsePrim, htags]
  have h5 : parseAndL (f + 1) (orChainQ ts) [] = some (orChainQ ts, []) := by
    simp [parseAndL]
  have h6 : parseAnd (f + 2) (Tok.lp :: (tagToks ts ++ [Tok.rp])) =
      some (orChainQ ts, []) := by
    simp [parseAnd, h4, h5]
  have h7 : parseOrL (f + 3) Q (Tok.word "OR" :: Tok.lp :: (tagToks ts ++ [Tok.rp])) =
      some (.or Q (orChainQ ts), []) := by
    simp [parseOrL, h6]
  simp [parseExpr, h3, h7]

/-- The MATCH argument `kb_search` builds for a parseable free-text query
plus boost tags parses to the OR of the query with the tag chain. -/
theorem ftsParse_or_boosts (q tagsStr : String) (Q : FtsQuery)
    (hq : ftsParse (pyStrip q) = some Q)
    (hne : pySplitWs tagsStr ≠ [])
    (hw : ∀ t ∈ pySplitWs tagsStr, isBoostTag t = true) :
    ftsParse (kbMatchArg q (some tagsStr)) =
      some (.or Q (orChainQ (pySplitWs tagsStr))) := by
  obtain ⟨t0, ts', hts⟩ := List.exists_cons_of_ne_nil hne
  unfold ftsParse at hq
  cases hlex : ftsLex (pyStrip q) with
  | none => rw [hlex] at hq; cases hq
  | some qt =>
  rw [hlex] at hq
  cases hpe : parseExpr (qt.length * 4 + 8) qt with
  | none => simp [hpe] at hq
  | some pr =>
  obtain ⟨Q0, rem0⟩ := pr
  cases rem0 with
  | cons t r => simp [hpe] at hq
  | nil =>
  simp only [hpe, Option.some.injEq] at hq
  subst hq
  have hbuild : kbMatchArg q (some tagsStr) =
      "(" ++ pyStrip q ++ ") OR (" ++
        String.intercalate " OR " (pySplitWs tagsStr) ++ ")" := by
    simp only [kbMatchArg]
    rw [if_neg (by simpa [List.isEmpty_iff] using hne)]
  rw [hbuild, hts]
  have hlexb := ftsLex_kbMatch (pyStrip q) qt ts' t0 hlex
    (fun t ht => hw t (by rw [hts]; simp [ht])) (hw t0 (by rw [hts]; simp))
  have hlen : (Tok.lp :: (qt ++ Tok.rp :: Tok.word "OR" :: Tok.lp ::
      (tagToks (t0 :: ts') ++ [Tok.rp]))).length =
      qt.length + 2 * ts'.length + 6 := by
    simp [tagToks, tagRestToks_length]
    omega
  have hsplit : (Tok.lp :: (qt ++ Tok.rp :: Tok.word "OR" :: Tok.lp ::
      (tagToks (t0 :: ts') ++ [Tok.rp]))).length * 4 + 8 =
      ((Tok.lp :: (qt ++ Tok.rp :: Tok.word "OR" :: Tok.lp ::
        (tagToks (t0 :: ts') ++ [Tok.rp]))).length * 4 + 4) + 4 := by omega
  have hfin : parseExpr ((Tok.lp :: (qt ++ Tok.rp :: Tok.word "OR" :: Tok.lp ::
      (tagToks (t0 :: ts') ++ [Tok.rp]))).length * 4 + 8)
      (Tok.lp :: (qt ++ Tok.rp :: Tok.word "OR" :: Tok.lp ::
        (tagToks (t0 :: ts') ++ [Tok.rp]))) =
      some (FtsQuery.or Q0 (orChainQ (t0 :: ts')), []) := by
    rw [hsplit]
    exact parseExpr_build _ qt Q0 (t0 :: ts') hpe
      (fun t ht => hw t (by rw [hts]; exact ht)) (by simp)
      (by rw [hlen]; omega) (by rw [hlen]; simp; omega)
  unfold ftsParse
  rw [hlexb]
  simp only [List.length_cons, List.length_append] at hfin ⊢
  rw [hfin]

/-- Evaluating the left-associated OR fold. -/
theorem ftsEval_orFold (c : Chunk) (cols : List Nat) (ts : List String)
    (acc : FtsQuery) :
    ftsEval c cols (ts.foldl (fun a t => .or a (.phrase [pyLower t])) acc) =
      (ftsEval c cols acc ||
        ts.any (fun t => ftsEval c cols (.phrase [pyLower t]))) := by
  induction ts generalizing acc with
  | nil => simp
  | cons t ts ih => simp [ih, ftsEval, Bool.or_assoc]

/-! ## Claim C7 -/

/-- C7: with one or more boost tags, the MATCH query `kb_search` executes
is the free-text query OR-ed with the tag chain: a chunk matches the
effective query exactly when it matches the free text or carries one of
the boost terms, so boosts never narrow the pre-ranking match set and a
tag hit alone suffices to surface a chunk. -/
theorem kb_tag_boost_or_semantics (q tagsStr : String) (Q : FtsQuery)
    (hq : ftsParse (pyStrip q) = some Q)
    (hne : pySplitWs tagsStr ≠ [])
    (hw : ∀ t ∈ pySplitWs tagsStr, isBoostTag t = true) :
    ftsParse (kbMatchArg q (some tagsStr)) =
      some (.or Q (orChainQ (pySplitWs tagsStr))) ∧
    (∀ c : Chunk, ftsEvalStr (kbMatchArg q (some tagsStr)) c =
      some (ftsEval c allColIdx Q ||
        (pySplitWs tagsStr).any (fun t => ftsEval c allColIdx (.phrase [pyLower t])))) ∧
    (∀ c : Chunk, ftsEval c allColIdx Q = true →
      ftsEvalStr (kbMatchArg q (some tagsStr)) c = some true) ∧
    (∀ (c : Chunk) (t : String), t ∈ pySplitWs tagsStr →
      ftsEval c allColIdx (.phrase [pyLower t]) = true →
      ftsEvalStr (kbMatchArg q (some tagsStr)) c = some true) ∧
    (∀ db : List Chunk, kbMatchSet db (kbMatchArg q (some tagsStr)) =
      some (db.filter (fun c => ftsEval c allColIdx Q ||
        (pySplitWs tagsStr).any (fun t => ftsEval c allColIdx (.phrase [pyLower t]))))) := by
  have hp := ftsParse_or_boosts q tagsStr Q hq hne hw
  have heval : ∀ c : Chunk,
      ftsEval c allColIdx (.or Q (orChainQ (pySplitWs tagsStr))) =
      (ftsEval c allColIdx Q ||
        (pySplitWs tagsStr).any (fun t => ftsEval c allColIdx (.phrase [pyLower t]))) := by
    intro c
    obtain ⟨t0, ts', hts⟩ := List.exists_cons_of_ne_nil hne
    rw [hts]
    show (ftsEval c allColIdx Q || ftsEval c allColIdx (orChainQ (t0 :: ts'))) = _
    simp [orChainQ, ftsEval_orFold, List.any_cons, Bool.or_assoc]
  refine ⟨hp, ?_, ?_, ?_, ?_⟩
  · intro c
    simp [ftsEvalStr, hp, heval c]
  · intro c hc
    simp [ftsEvalStr, hp, heval c, hc]
  · intro c t ht hc
    have hany : (pySplitWs tagsStr).any
        (fun t => ftsEval c allColIdx (.phrase [pyLower t])) = true :=
      List.any_eq_true.mpr ⟨t, ht, hc⟩
    simp [ftsEvalStr, hp, heval c, hany]
  · intro db
    simp only [kbMatchSet, hp, Option.map_some']
    exact congrArg some (List.filter_congr (fun c _ => heval c))

/-- The seeded severity-rubric chunk. -/
def polSevChunk : Chunk := (seedChunks.drop 1).headD ⟨"", "", "", "", ""⟩

theorem kb_tag_boost_or_semantics_witness :
    ftsParse (kbMatchArg "gateway" (some "sev1")) =
      some (.or (.phrase ["gateway"]) (orChainQ ["sev1"])) ∧
    ftsEvalStr (kbMatchArg "gateway" (some "sev1")) polSevChunk = some true :=
  ⟨(kb_tag_boost_or_semantics "gateway" "sev1" (.phrase ["gateway"])
      (by decide) (by decide) (by decide)).1,
   (kb_tag_boost_or_semantics "gateway" "sev1" (.phrase ["gateway"])
      (by decide) (by decide) (by decide)).2.2.2.1 polSevChunk "sev1"
      (by decide) (by decide)⟩

end IncyBot
